import Mathlib

/-!
Verification of the behavior-tree structural synchronization engine of
`Source/UnrealMCPython/Private/MCPythonHelper.cpp`.

The development shallowly embeds the C++ source: JSON documents become an
inductive `Json` value, the reflection-driven registry becomes a list of
class descriptors, the live behavior tree becomes a mutual inductive
`BTree`/`BTSlot`, and each serializer/builder/layout routine of the source
is translated function by function.  Engine collaborators that the source
calls but does not define (the JSON value accessors, `FString::SanitizeFloat`,
the graph schema's default-node creation) are modelled from their specified
behavior and are marked as such in their doc comments.
-/

namespace UnrealMCPython

/-- JSON value model (UE `FJsonValue` with its `EJson` type tags).  Numbers
are carried as exact rationals; object fields are an ordered association
list, first key wins on lookup (UE object fields are unique-keyed). -/
inductive Json where
  | jnull
  | jbool (b : Bool)
  | jnum (q : ℚ)
  | jstr (s : String)
  | jarr (elems : List Json)
  | jobj (fields : List (String × Json))

/-- The field map of a JSON object (`TSharedPtr<FJsonObject>`). -/
abbrev JObj := List (String × Json)

/-- `FJsonObject::TryGetField`: first field with the given name. -/
def getField (fields : JObj) (name : String) : Option Json :=
  (fields.find? (fun p => p.1 == name)).map (·.2)

/-- `FJsonObject::HasField`. -/
def hasField (fields : JObj) (name : String) : Bool :=
  (getField fields name).isSome

/-- `FJsonValue::AsArray`: the element list of an array value, empty for
every other kind of value (the engine logs and returns an empty array). -/
def asArray : Json → List Json
  | .jarr a => a
  | _ => []

/-- `GetArrayField`: `AsArray` of the looked-up field, empty when absent. -/
def asArrayField (fields : JObj) (name : String) : List Json :=
  match getField fields name with
  | some v => asArray v
  | none => []

/-- `FJsonValue::AsObject`: the field map of an object value; `none` models
the invalid shared pointer the engine returns for non-objects. -/
def asObject : Json → Option JObj
  | .jobj f => some f
  | _ => none

/-- `GetObjectField` combined with the validity check of the result. -/
def asObjectField (fields : JObj) (name : String) : Option JObj :=
  match getField fields name with
  | some v => asObject v
  | none => none

/-- Count of trailing decimal zero digits of `n`, up to `fuel` digits. -/
def countTrailingZeros (fuel n : ℕ) : ℕ :=
  match fuel with
  | 0 => 0
  | f + 1 => if n % 10 == 0 then countTrailingZeros f (n / 10) + 1 else 0

/-- Decimal digits of `n`, left-padded with zeros to width `k`. -/
def padDigits (k n : ℕ) : String :=
  String.mk (List.replicate (k - (toString n).length) '0') ++ toString n

/-- Modelled from the spec: `FString::SanitizeFloat(value, minFractionalDigits)`
— the engine collaborator that renders a numeric value as decimal text
(§4.2 "if numeric, format as a decimal text value").  It prints the value
with six fractional digits (rounded) and trims trailing zeros down to the
requested minimum number of fractional digits, dropping the decimal point
when none remain. -/
def sanitizeFloat (q : ℚ) (minFrac : ℕ) : String :=
  let s : ℕ := (round (|q| * 1000000) : ℤ).toNat
  let intPart := s / 1000000
  let frac := s % 1000000
  let keep := max minFrac (6 - countTrailingZeros 6 frac)
  let fracPart := frac / 10 ^ (6 - keep)
  (if q < 0 then "-" else "") ++ toString intPart ++
    (if keep == 0 then "" else "." ++ padDigits keep fracPart)

/-- Modelled from the spec: `FJsonValue::TryGetString` — the engine JSON
accessor succeeds for string values (verbatim), for numeric values
(`SanitizeFloat` with zero minimum fractional digits) and for booleans
(the literal text `true`/`false`), and fails for every other kind. -/
def tryGetString : Json → Option String
  | .jstr s => some s
  | .jnum q => some (sanitizeFloat q 0)
  | .jbool b => some (if b then "true" else "false")
  | _ => none

/-- `FJsonValue::AsString`: `TryGetString`, with the empty string on failure. -/
def asString (j : Json) : String :=
  (tryGetString j).getD ""

/-- `GetStringField`: `AsString` of the looked-up field. -/
def getStringField (fields : JObj) (name : String) : String :=
  match getField fields name with
  | some v => asString v
  | none => ""

/-- A reflected `FProperty` slot of a node class: its name, whether it is
flagged editable (`CPF_Edit`), whether it is a struct-typed property
(`FStructProperty`), and whether that struct exposes an inner field named
`DefaultValue`. -/
structure UEProperty where
  name : String
  edit : Bool
  isStructProp : Bool
  structHasDefaultValue : Bool
deriving DecidableEq, Repr

/-- A reflected `UClass`: its name, the names along its superclass chain
(the class itself first, as walked by `GetSuperClass`), its abstract flag,
and the property slots with their default (class-default-object) text
values, as produced for a freshly constructed instance. -/
structure UEClass where
  name : String
  ancestry : List String
  abstractFlag : Bool
  defaults : List (UEProperty × String)
deriving DecidableEq, Repr

/-- `UClass::IsChildOf(base)`, abstracted by class name: true when the
named base occurs on the superclass chain. -/
def UEClass.isChildOfName (c : UEClass) (base : String) : Bool :=
  c.ancestry.contains base

/-- `CheckClassAncestor` (MCPythonHelper.cpp): walks the superclass chain
comparing `GetName()` against the requested ancestor name. -/
def CheckClassAncestor (c : UEClass) (ancestorName : String) : Bool :=
  c.ancestry.contains ancestorName

/-- The type-registry scan order: the list of all known classes, in
`TObjectIterator<UClass>` enumeration order. -/
abbrev Registry := List UEClass

/-- `FindBTNodeClass` (MCPythonHelper.cpp): first class whose name matches
that is a concrete (non-abstract) descendant of `UBTNode`. -/
def FindBTNodeClass (reg : Registry) (className : String) : Option UEClass :=
  reg.find? (fun c => c.name == className && c.isChildOfName "BTNode" && !c.abstractFlag)

/-- The `ValueStr` computation of `SetBTNodeProperties`: `TryGetString`
first, then the explicit `EJson::Number` / `EJson::Boolean` branches, and
`continue` (`none`) for every other value kind. -/
def decodeJsonValue (j : Json) : Option String :=
  match tryGetString j with
  | some s => some s
  | none =>
    match j with
    | .jnum q => some (sanitizeFloat q 1)
    | .jbool b => some (if b then "true" else "false")
    | _ => none

/-- `UClass::FindPropertyByName` over a node instance's property slots. -/
def findPropertyByName (props : List (UEProperty × String)) (key : String) : Option UEProperty :=
  (props.find? (fun pv => pv.1.name == key)).map (·.1)

/-- `ImportText_Direct`, modelled as storing the given text into the first
property slot with the given name. -/
def writeProp : List (UEProperty × String) → String → String → List (UEProperty × String)
  | [], _, _ => []
  | (p, v) :: rest, key, newV =>
    if p.name == key then (p, newV) :: rest else (p, v) :: writeProp rest key newV

/-- The wrapped-value special case of `SetBTNodeProperties`: a struct
property whose struct has an inner property named `DefaultValue` receives
the text in field-initializer form `(DefaultValue=<value>)`. -/
def importText (p : UEProperty) (v : String) : String :=
  if p.isStructProp && p.structHasDefaultValue then "(DefaultValue=" ++ v ++ ")" else v

/-- `SetBTNodeProperties` (MCPythonHelper.cpp): for each incoming key/value
pair in order, look the key up among the node's properties (skip unknown
keys), decode the JSON value to text (skip undecodable kinds), and import
the — possibly wrapped — text onto the property. -/
def SetBTNodeProperties (props : List (UEProperty × String)) (incoming : JObj) :
    List (UEProperty × String) :=
  incoming.foldl
    (fun acc pair =>
      match findPropertyByName acc pair.1 with
      | none => acc
      | some p =>
        match decodeJsonValue pair.2 with
        | none => acc
        | some v => writeProp acc pair.1 (importText p v))
    props

/-- A decorator or service instance owned by the live tree: its runtime
display name (`GetNodeName`), its stable object name (`GetName`), its class
name, and its property slots with current text values. -/
structure BTModifier where
  nodeName : String
  objName : String
  cls : String
  props : List (UEProperty × String)
deriving DecidableEq, Repr

mutual
/-- A live behavior-tree node: `UBTCompositeNode` (ordered child slots,
attached services) or `UBTTaskNode` (attached services, no children). -/
inductive BTree where
  | comp (nodeName objName cls : String) (props : List (UEProperty × String))
      (services : List BTModifier) (children : List BTSlot)
  | task (nodeName objName cls : String) (props : List (UEProperty × String))
      (services : List BTModifier)
/-- `FBTCompositeChild`: one child slot of a composite, holding the slot's
decorators and exactly one child node. -/
inductive BTSlot where
  | slot (decorators : List BTModifier) (child : BTree)
end

/-- `UBTNode::GetNodeName()`. -/
def BTree.nodeName : BTree → String
  | .comp n _ _ _ _ _ => n
  | .task n _ _ _ _ => n

/-- `UObject::GetName()` (the stable object name). -/
def BTree.objName : BTree → String
  | .comp _ o _ _ _ _ => o
  | .task _ o _ _ _ => o

/-- `GetClass()->GetName()`. -/
def BTree.cls : BTree → String
  | .comp _ _ c _ _ _ => c
  | .task _ _ c _ _ => c

/-- The node's property slots with their current text values. -/
def BTree.props : BTree → List (UEProperty × String)
  | .comp _ _ _ p _ _ => p
  | .task _ _ _ p _ => p

/-- The node's attached services. -/
def BTree.services : BTree → List BTModifier
  | .comp _ _ _ _ s _ => s
  | .task _ _ _ _ s => s

/-- `FMCPythonBTNodeInfo` (MCPythonHelper.h): the intermediate node record
produced by `SerializeBTNode`. -/
inductive FMCPythonBTNodeInfo where
  | mk (NodeName NodeClass : String)
      (DecoratorClasses DecoratorNames ServiceClasses ServiceNames : List String)
      (Children : List FMCPythonBTNodeInfo)

def FMCPythonBTNodeInfo.NodeName : FMCPythonBTNodeInfo → String
  | .mk n _ _ _ _ _ _ => n

def FMCPythonBTNodeInfo.NodeClass : FMCPythonBTNodeInfo → String
  | .mk _ c _ _ _ _ _ => c

def FMCPythonBTNodeInfo.DecoratorClasses : FMCPythonBTNodeInfo → List String
  | .mk _ _ dc _ _ _ _ => dc

def FMCPythonBTNodeInfo.DecoratorNames : FMCPythonBTNodeInfo → List String
  | .mk _ _ _ dn _ _ _ => dn

def FMCPythonBTNodeInfo.ServiceClasses : FMCPythonBTNodeInfo → List String
  | .mk _ _ _ _ sc _ _ => sc

def FMCPythonBTNodeInfo.ServiceNames : FMCPythonBTNodeInfo → List String
  | .mk _ _ _ _ _ sn _ => sn

def FMCPythonBTNodeInfo.Children : FMCPythonBTNodeInfo → List FMCPythonBTNodeInfo
  | .mk _ _ _ _ _ _ ch => ch

/-- The per-slot decorator loop of `SerializeBTNode`: append the slot's
decorator classes and names onto the already-serialized child record. -/
def addSlotDecorators : FMCPythonBTNodeInfo → List BTModifier → FMCPythonBTNodeInfo
  | .mk n c dc dn sc sn ch, decs =>
    .mk n c (dc ++ decs.map (·.cls)) (dn ++ decs.map (·.nodeName)) sc sn ch

mutual
/-- `SerializeBTNode` (MCPythonHelper.cpp): record name and class, the
attached services (classes and names in attachment order), and the
children in slot order.  The source function receives only composites; a
task node is serialized by the inline code of the task branch of the
children loop, which the `task` case mirrors (name, class, services, no
children — the slot's decorators are appended by `serializeSlots`). -/
def SerializeBTNode : BTree → FMCPythonBTNodeInfo
  | .comp n _ c _ svcs children =>
    .mk n c [] [] (svcs.map (·.cls)) (svcs.map (·.nodeName)) (serializeSlots children)
  | .task n _ c _ svcs =>
    .mk n c [] [] (svcs.map (·.cls)) (svcs.map (·.nodeName)) []
termination_by t => sizeOf t

/-- The children loop of `SerializeBTNode`: serialize each slot's child in
slot order and attach the slot's decorators onto the resulting record. -/
def serializeSlots : List BTSlot → List FMCPythonBTNodeInfo
  | [] => []
  | .slot decs child :: rest =>
    addSlotDecorators (SerializeBTNode child) decs :: serializeSlots rest
termination_by l => sizeOf l
end

/-- The indexed modifier-array loop of `BTNodeInfoToJson`: one object per
class, carrying a `name` field only while the parallel name list still has
an entry at that index (`IsValidIndex`). -/
def modifierEntriesToJson : List String → List String → List Json
  | [], _ => []
  | c :: cs, [] => .jobj [("class", .jstr c)] :: modifierEntriesToJson cs []
  | c :: cs, nm :: ns =>
    .jobj [("class", .jstr c), ("name", .jstr nm)] :: modifierEntriesToJson cs ns

mutual
/-- `BTNodeInfoToJson` (MCPythonHelper.cpp): `node_name`, `node_class`,
then `decorators`, `services` and `children` — each of the three emitted
only when the corresponding list is non-empty. -/
def BTNodeInfoToJson : FMCPythonBTNodeInfo → Json
  | .mk n c dc dn sc sn ch =>
    .jobj ([("node_name", .jstr n), ("node_class", .jstr c)]
      ++ (if dc.length > 0 then [("decorators", .jarr (modifierEntriesToJson dc dn))] else [])
      ++ (if sc.length > 0 then [("services", .jarr (modifierEntriesToJson sc sn))] else [])
      ++ (if ch.length > 0 then [("children", .jarr (infoChildrenToJson ch))] else []))
termination_by i => sizeOf i

/-- The children loop of `BTNodeInfoToJson`. -/
def infoChildrenToJson : List FMCPythonBTNodeInfo → List Json
  | [] => []
  | i :: rest => BTNodeInfoToJson i :: infoChildrenToJson rest
termination_by l => sizeOf l
end

/-- The result of `FindNodeByName` (`UBTNode*`): a tree node (composite or
task) or an attached modifier (decorator or service). -/
inductive BTFound where
  | tree (t : BTree)
  | sub (m : BTModifier)

def BTFound.fNodeName : BTFound → String
  | .tree t => t.nodeName
  | .sub m => m.nodeName

def BTFound.fObjName : BTFound → String
  | .tree t => t.objName
  | .sub m => m.objName

def BTFound.fCls : BTFound → String
  | .tree t => t.cls
  | .sub m => m.cls

def BTFound.fProps : BTFound → List (UEProperty × String)
  | .tree t => t.props
  | .sub m => m.props

/-- The name test used throughout `FindNodeByName`: display name or stable
object name. -/
def BTModifier.nameHit (m : BTModifier) (name : String) : Bool :=
  m.nodeName == name || m.objName == name

mutual
/-- `FindNodeByName` (MCPythonHelper.cpp): check the root itself, then the
root's services, then the children in slot order.  Each early `return` of
the source is rendered as `Option.or`: the first hit wins and later checks
are not consulted.  The source receives only composite roots; the `task`
case mirrors the same self/services checks. -/
def FindNodeByName : BTree → String → Option BTFound
  | .comp n o c p svcs children, name =>
    if n == name || o == name then some (.tree (.comp n o c p svcs children))
    else ((svcs.find? (fun s => s.nameHit name)).map BTFound.sub).or
      (findInSlots children name)
  | .task n o c p svcs, name =>
    if n == name || o == name then some (.tree (.task n o c p svcs))
    else (svcs.find? (fun s => s.nameHit name)).map BTFound.sub
termination_by t _ => (sizeOf t, 0)

/-- The children loop of `FindNodeByName`: per slot, the slot's decorators
first, then the slot's child, then the remaining slots — first hit wins. -/
def findInSlots : List BTSlot → String → Option BTFound
  | [], _ => none
  | .slot decs child :: rest, name =>
    ((decs.find? (fun d => d.nameHit name)).map BTFound.sub).or
      ((findSlotChild child name).or (findInSlots rest name))
termination_by l _ => (sizeOf l, 0)

/-- The per-slot child check of `FindNodeByName`: a composite child is
searched recursively; a task child is checked by name and then its
services are checked. -/
def findSlotChild : BTree → String → Option BTFound
  | .comp cn cOb cc cp cs cch, name => FindNodeByName (.comp cn cOb cc cp cs cch) name
  | .task tn tOb tc tp tsvcs, name =>
    if tn == name || tOb == name then some (.tree (.task tn tOb tc tp tsvcs))
    else (tsvcs.find? (fun s => s.nameHit name)).map BTFound.sub
termination_by t _ => (sizeOf t, 1)
end

mutual
/-- Spec-side definition, following §4.5 of the design: the order in which
`find` visits nodes — the root itself, the root's services, then per child
slot the slot's decorators followed by the child subtree (a composite
recursively; a task, then the task's services). -/
def visitOrderSpec : BTree → List BTFound
  | .comp n o c p svcs children =>
    .tree (.comp n o c p svcs children) :: (svcs.map .sub ++ slotsVisitOrder children)
  | .task n o c p svcs =>
    .tree (.task n o c p svcs) :: svcs.map .sub
termination_by t => sizeOf t

/-- Spec-side: visit order contributed by a list of child slots. -/
def slotsVisitOrder : List BTSlot → List BTFound
  | [] => []
  | .slot decs child :: rest =>
    (decs.map .sub ++ visitOrderSpec child) ++ slotsVisitOrder rest
termination_by l => sizeOf l
end

/-- A `success:false` response envelope with a message. -/
def failObj (msg : String) : Json :=
  .jobj [("success", .jbool false), ("message", .jstr msg)]

/-- `GetBehaviorTreeStructure` (MCPythonHelper.cpp).  The input models the
`UBehaviorTree*` argument: `none` when the asset is null or its `RootNode`
is null, otherwise the live root composite. -/
def GetBehaviorTreeStructure (bt : Option BTree) : Json :=
  match bt with
  | none => failObj "Invalid BehaviorTree or empty tree."
  | some root =>
    .jobj [("success", .jbool true), ("root", BTNodeInfoToJson (SerializeBTNode root))]

/-- The EditAnywhere property export shared by the detail endpoints:
every `CPF_Edit`-flagged property slot, name to `ExportText` value. -/
def exportEditProps (props : List (UEProperty × String)) : List (String × Json) :=
  props.filterMap (fun pv => if pv.1.edit then some (pv.1.name, Json.jstr pv.2) else none)

/-- One entry of the `services` array of the node-detail response. -/
def serviceDetailJson (m : BTModifier) : Json :=
  .jobj [("name", .jstr m.nodeName), ("class", .jstr m.cls)]

/-- `GetBehaviorTreeNodeDetails` (MCPythonHelper.cpp). -/
def GetBehaviorTreeNodeDetails (bt : Option BTree) (nodeName : String) : Json :=
  match bt with
  | none => failObj "Invalid BehaviorTree or empty tree."
  | some root =>
    match FindNodeByName root nodeName with
    | none => failObj ("Node \x27" ++ nodeName ++ "\x27 not found in behavior tree.")
    | some found =>
      .jobj ([("success", .jbool true),
              ("node_name", .jstr found.fNodeName),
              ("node_class", .jstr found.fCls),
              ("properties", .jobj (exportEditProps found.fProps))]
        ++ (match found with
            | .tree (.comp _ _ _ _ svcs children) =>
              [("child_count", .jnum (children.length : ℚ))]
                ++ (if (svcs.map serviceDetailJson).length > 0 then
                      [("services", .jarr (svcs.map serviceDetailJson))]
                    else [])
            | _ => []))

/-- The classification of a selected graph node's `NodeInstance`, as
produced by the cast chain of `GetSelectedBTNodes`. -/
inductive SelKind where
  | composite
  | task
  | decorator
  | service
  | unknown
deriving DecidableEq, Repr

def SelKind.text : SelKind → String
  | .composite => "composite"
  | .task => "task"
  | .decorator => "decorator"
  | .service => "service"
  | .unknown => "unknown"

/-- A selected behavior-tree node, as observed through its graph node. -/
structure SelNode where
  nodeName : String
  cls : String
  kind : SelKind
  props : List (UEProperty × String)

/-- The editor state consumed by `GetSelectedBTNodes`: the three early-out
failure states, or a foreground behavior-tree editor with the asset's path
and the selected nodes. -/
inductive SelState where
  | noEditor
  | noSubsystem
  | noForeground
  | found (path : String) (sel : List SelNode)

/-- One entry of the `selected_nodes` array. -/
def selNodeJson (n : SelNode) : Json :=
  .jobj [("node_name", .jstr n.nodeName), ("node_class", .jstr n.cls),
         ("node_type", .jstr n.kind.text),
         ("properties", .jobj (exportEditProps n.props))]

/-- `GetSelectedBTNodes` (MCPythonHelper.cpp). -/
def GetSelectedBTNodes : SelState → Json
  | .noEditor => failObj "GEditor is null."
  | .noSubsystem => failObj "AssetEditorSubsystem not available."
  | .noForeground => failObj "No Behavior Tree editor is open in the foreground."
  | .found path sel =>
    .jobj [("success", .jbool true),
           ("behavior_tree_path", .jstr path),
           ("selected_nodes", .jarr (sel.map selNodeJson)),
           ("count", .jnum (sel.length : ℚ))]

/-- Any value found by `getField` is strictly smaller than the field map. -/
theorem sizeOf_getField {fields : JObj} {k : String} {v : Json}
    (h : getField fields k = some v) : sizeOf v + 1 < sizeOf fields := by
  unfold getField at h
  cases hf : fields.find? (fun p => p.1 == k) with
  | none => rw [hf] at h; simp at h
  | some pv =>
    rw [hf] at h
    have hmem := List.mem_of_find?_eq_some hf
    have hlt := List.sizeOf_lt_of_mem hmem
    cases pv with
    | mk a b =>
      simp at h
      subst h
      simp at hlt
      have : 1 ≤ sizeOf a := by cases a; simp
      omega

/-- The element list of a present array field is smaller than the map. -/
theorem sizeOf_asArrayField {fields : JObj} {k : String}
    (h : hasField fields k = true) : sizeOf (asArrayField fields k) < sizeOf fields := by
  unfold hasField at h
  cases hg : getField fields k with
  | none => rw [hg] at h; simp at h
  | some v =>
    have hlt := sizeOf_getField hg
    unfold asArrayField
    rw [hg]
    cases v <;> simp [asArray] at hlt ⊢ <;> omega

/-- Which visual-graph node variant `CreateBTGraphNodeRecursive` creates. -/
inductive GKind where
  | composite
  | task
  | simpleParallel
  | subtreeTask
deriving DecidableEq, Repr

/-- A runtime node instantiated by the builder (`NewObject<UBTNode>`): its
class name and its property slots, initialized to the class defaults and
then updated by the imported attributes. -/
structure RTInst where
  cls : String
  props : List (UEProperty × String)
deriving DecidableEq, Repr

/-- A visual-graph node created by the builder: its variant, the bound
runtime node (`NodeInstance`), the attached decorator and service sub-node
instances in attachment order, and the children linked from its output
pin in link order.  Task-variant graph nodes have no output pin and the
builder never links children to them. -/
inductive GNode where
  | mk (kind : GKind) (inst : RTInst) (decorators : List RTInst)
      (services : List RTInst) (children : List GNode)

def GNode.kind : GNode → GKind
  | .mk k _ _ _ _ => k

def GNode.inst : GNode → RTInst
  | .mk _ i _ _ _ => i

def GNode.decorators : GNode → List RTInst
  | .mk _ _ d _ _ => d

def GNode.services : GNode → List RTInst
  | .mk _ _ _ s _ => s

def GNode.children : GNode → List GNode
  | .mk _ _ _ _ ch => ch

/-- The property-import step shared by node and modifier construction:
when a `properties` object field is present, run `SetBTNodeProperties`
over the freshly constructed instance's default values (a missing or
non-object field leaves the instance untouched, as the invalid shared
pointer does in the source). -/
def applyProps (dflts : List (UEProperty × String)) (fields : JObj) :
    List (UEProperty × String) :=
  match asObjectField fields "properties" with
  | some o => SetBTNodeProperties dflts o
  | none => dflts

/-- Outcome of one iteration of the decorator/service loops of
`CreateBTGraphNodeRecursive`: skipped silently, instantiated, or skipped
with a logged warning. -/
inductive ModStep where
  | skip
  | ok (i : RTInst)
  | warn (m : String)

/-- One iteration of the decorator/service loop: skip entries that are not
objects or have no `class` field; warn and skip when the class does not
resolve or is not a descendant of the expected modifier base; otherwise
instantiate and import the entry's properties. -/
def modStep (reg : Registry) (base label : String) (v : Json) : ModStep :=
  match asObject v with
  | none => .skip
  | some obj =>
    if !hasField obj "class" then .skip
    else
      let clsName := getStringField obj "class"
      match FindBTNodeClass reg clsName with
      | some c =>
        if c.isChildOfName base then .ok ⟨c.name, applyProps c.defaults obj⟩
        else .warn ("BuildBT: " ++ label ++ " class \x27" ++ clsName ++ "\x27 not found or invalid")
      | none => .warn ("BuildBT: " ++ label ++ " class \x27" ++ clsName ++ "\x27 not found or invalid")

/-- The decorator/service loops of `CreateBTGraphNodeRecursive`: the
instances attached in order, and the warnings logged in order. -/
def buildModifiers (reg : Registry) (base label : String) :
    List Json → List RTInst × List String
  | [] => ([], [])
  | v :: rest =>
    let r := buildModifiers reg base label rest
    match modStep reg base label v with
    | .skip => r
    | .ok i => (i :: r.1, r.2)
    | .warn m => (r.1, m :: r.2)

mutual
/-- `CreateBTGraphNodeRecursive` (MCPythonHelper.cpp): resolve
`node_class`, classify it, instantiate the runtime node, import its
`properties`, build its `decorators` and `services` sub-nodes, and — for
composites — recurse into `children`, linking each successfully built
child in order.  Returns the created graph node (`none` models the
`nullptr` return) together with the warnings logged, in order. -/
def createRec (reg : Registry) (fields : JObj) : Option GNode × List String :=
  if !hasField fields "node_class" then (none, [])
  else
    let nodeClassName := getStringField fields "node_class"
    match FindBTNodeClass reg nodeClassName with
    | none => (none, ["BuildBT: Class \x27" ++ nodeClassName ++ "\x27 not found"])
    | some cls =>
      let bIsComposite := cls.isChildOfName "BTCompositeNode"
      let bIsTask := cls.isChildOfName "BTTaskNode"
      let bIsSimpleParallel := CheckClassAncestor cls "BTComposite_SimpleParallel"
      let bIsSubtreeTask := CheckClassAncestor cls "BTTask_RunBehavior"
        || CheckClassAncestor cls "BTTask_RunBehaviorDynamic"
      let gKind : Option GKind :=
        if bIsSimpleParallel then some .simpleParallel
        else if bIsComposite then some .composite
        else if bIsSubtreeTask then some .subtreeTask
        else if bIsTask then some .task
        else none
      match gKind with
      | none => (none, ["BuildBT: Unsupported node type for \x27" ++ nodeClassName ++ "\x27"])
      | some kind =>
        let inst : RTInst := ⟨cls.name, applyProps cls.defaults fields⟩
        let decsR := buildModifiers reg "BTDecorator" "Decorator" (asArrayField fields "decorators")
        let svcsR := buildModifiers reg "BTService" "Service" (asArrayField fields "services")
        let childR :=
          if bIsComposite then
            if h : hasField fields "children" then
              createChildren reg (asArrayField fields "children")
            else ([], [])
          else ([], [])
        (some (.mk kind inst decsR.1 svcsR.1 childR.1), decsR.2 ++ svcsR.2 ++ childR.2)
termination_by sizeOf fields
decreasing_by
  exact sizeOf_asArrayField h

/-- The children loop of `CreateBTGraphNodeRecursive`: entries that are
not objects are skipped; each object entry is built recursively; the
successfully built children are linked in order, failed subtrees are
omitted; the warnings of all children accumulate in order. -/
def createChildren (reg : Registry) (vals : List Json) : List GNode × List String :=
  match vals with
  | [] => ([], [])
  | v :: rest =>
    let head :=
      match v with
      | .jobj f => createRec reg f
      | _ => (none, [])
    let tail := createChildren reg rest
    ((match head.1 with
      | some g => g :: tail.1
      | none => tail.1), head.2 ++ tail.2)
termination_by sizeOf vals
decreasing_by
  all_goals simp
  all_goals omega
end

mutual
/-- `CountSubtreeLeaves` (MCPythonHelper.cpp): the sum of the leaf counts
of all output-linked children, floored at 1. -/
def CountSubtreeLeaves : GNode → ℕ
  | .mk _ _ _ _ children => max 1 (sumSubtreeLeaves children)
termination_by g => sizeOf g

/-- The accumulation loop of `CountSubtreeLeaves` over the linked children. -/
def sumSubtreeLeaves : List GNode → ℕ
  | [] => 0
  | c :: rest => CountSubtreeLeaves c + sumSubtreeLeaves rest
termination_by l => sizeOf l
end

/-- The `(int32)` cast applied to the computed positions: C++ truncation
toward zero. -/
def cppTrunc (q : ℚ) : ℤ :=
  if q < 0 then -⌊-q⌋ else ⌊q⌋

/-- A positioned visual-graph node after the layout pass: `NodePosX`,
`NodePosY`, and the positioned children. -/
inductive PNode where
  | mk (x y : ℤ) (children : List PNode)

def PNode.x : PNode → ℤ
  | .mk x _ _ => x

def PNode.y : PNode → ℤ
  | .mk _ y _ => y

def PNode.children : PNode → List PNode
  | .mk _ _ ch => ch

mutual
/-- `LayoutBTGraphNodes` (MCPythonHelper.cpp): center the node in its
allocated width (`NodeWidth` 280), place children one vertical step
(`YStep` 200) plus the node's sub-node height (60 per attached decorator
or service) below, each child allocated `leafCount × (280 + 40)` width,
advancing left-to-right. -/
def LayoutBTGraphNodes (g : GNode) (leftX width y : ℚ) : PNode :=
  match g with
  | .mk _ _ decs svcs children =>
    let subNodeHeight : ℚ := ((decs.length + svcs.length : ℕ) : ℚ) * 60
    .mk (cppTrunc (leftX + width / 2 - 280 / 2)) (cppTrunc y)
      (layoutChildren children leftX (y + 200 + subNodeHeight))
termination_by sizeOf g

/-- The children loop of `LayoutBTGraphNodes`, advancing the running left
edge by each child's allocated width. -/
def layoutChildren (cs : List GNode) (childX childY : ℚ) : List PNode :=
  match cs with
  | [] => []
  | c :: rest =>
    let childWidth : ℚ := ((CountSubtreeLeaves c : ℕ) : ℚ) * (280 + 40)
    LayoutBTGraphNodes c childX childWidth childY
      :: layoutChildren rest (childX + childWidth) childY
termination_by sizeOf cs
end

/-- Modelled from the spec: the graph schema collaborator
(`UEdGraphSchema_BehaviorTree::CreateDefaultNodesForGraph`) creates the
default nodes of a fresh behavior-tree graph, which include the permanent
root marker node (§4.4: "locate the document's permanent root marker node
in its visual graph").  Graph nodes are abstracted to the outcome of the
`Cast<UBehaviorTreeGraphNode_Root>` test: `true` for the root marker. -/
def schemaDefaultNodes : List Bool := [true]

/-- `BuildBehaviorTree` (MCPythonHelper.cpp), at the granularity of its
response envelope.  `assetValid` models the `UBehaviorTree*` null test;
`graph` models `BehaviorTree->BTGraph` (`none` = missing, otherwise the
existing node list abstracted to each node's root-marker test); `parsed`
models the result of `FJsonSerializer::Deserialize` (`none` = the input
text fails to parse as a JSON object). -/
def BuildBehaviorTree (reg : Registry) (assetValid : Bool) (graph : Option (List Bool))
    (parsed : Option JObj) : Json :=
  if !assetValid then failObj "Invalid BehaviorTree asset."
  else
    match parsed with
    | none => failObj "Failed to parse JSON input."
    | some fields =>
      let nodes := match graph with
        | some ns => ns
        | none => schemaDefaultNodes
      if !nodes.contains true then failObj "No root node found in BT graph."
      else
        match (createRec reg fields).1 with
        | none => failObj "Failed to create root node from JSON. Check node_class names."
        | some _ =>
          .jobj [("success", .jbool true),
                 ("message", .jstr "Behavior tree built successfully from JSON.")]

-- ─── Observers used by the theorem statements ────────────────────────────────

/-- The field map of a JSON object value (empty for non-objects). -/
def objFields (j : Json) : JObj :=
  (asObject j).getD []

/-- The stored text value of the first property slot with the given name. -/
def getPropValue (props : List (UEProperty × String)) (key : String) : Option String :=
  (props.find? (fun pv => pv.1.name == key)).map (·.2)

-- ─── Field-lookup lemmas ─────────────────────────────────────────────────────

theorem getField_cons (k : String) (v : Json) (rest : JObj) (name : String) :
    getField ((k, v) :: rest) name = if k == name then some v else getField rest name := by
  unfold getField
  rw [List.find?]
  by_cases h : k == name <;> simp [h]

theorem getField_nil (name : String) : getField ([] : JObj) name = none := rfl

theorem getField_append (l₁ l₂ : JObj) (name : String) :
    getField (l₁ ++ l₂) name = (getField l₁ name).or (getField l₂ name) := by
  unfold getField
  rw [List.find?_append]
  cases l₁.find? (fun p => p.1 == name) <;> simp

-- ─── C10: presence of the optional serializer fields ─────────────────────────

/-- The field list produced by `BTNodeInfoToJson` for a given record. -/
theorem BTNodeInfoToJson_eq (n c : String) (dc dn sc sn : List String)
    (ch : List FMCPythonBTNodeInfo) :
    BTNodeInfoToJson (.mk n c dc dn sc sn ch) =
      .jobj ([("node_name", .jstr n), ("node_class", .jstr c)]
        ++ (if dc.length > 0 then [("decorators", .jarr (modifierEntriesToJson dc dn))] else [])
        ++ (if sc.length > 0 then [("services", .jarr (modifierEntriesToJson sc sn))] else [])
        ++ (if ch.length > 0 then [("children", .jarr (infoChildrenToJson ch))] else [])) := by
  rw [BTNodeInfoToJson]

/-- C10: in every node record emitted by the tree-structure serializer, the
`decorators`, `services` and `children` JSON fields are present exactly when
the corresponding list is non-empty; an empty list is omitted from the
record entirely rather than written as an empty array. -/
theorem claim_C10 (i : FMCPythonBTNodeInfo) :
    hasField (objFields (BTNodeInfoToJson i)) "decorators" = !i.DecoratorClasses.isEmpty ∧
    hasField (objFields (BTNodeInfoToJson i)) "services" = !i.ServiceClasses.isEmpty ∧
    hasField (objFields (BTNodeInfoToJson i)) "children" = !i.Children.isEmpty := by
  obtain ⟨n, c, dc, dn, sc, sn, ch⟩ := i
  rw [BTNodeInfoToJson_eq]
  refine ⟨?_, ?_, ?_⟩ <;>
    cases dc <;> cases sc <;> cases ch <;>
      simp [objFields, asObject, hasField, getField_append, getField_cons, getField_nil,
        FMCPythonBTNodeInfo.DecoratorClasses, FMCPythonBTNodeInfo.ServiceClasses,
        FMCPythonBTNodeInfo.Children]

-- ─── C5: the attribute decoding rule ─────────────────────────────────────────

/-- C5: `SetBTNodeProperties` processes its map entry-by-entry: a key that
names no property on the node is silently ignored; for a known property, a
string value is used verbatim, a numeric value is formatted as decimal
text, a boolean value becomes the literal text `true`/`false` (each then
imported, wrapped or not, by `importText`), and a value of any other JSON
type is skipped. -/
theorem claim_C5 (props : List (UEProperty × String)) (key : String) (j : Json)
    (rest : JObj) (s : String) (q : ℚ) (b : Bool) :
    (findPropertyByName props key = none →
      SetBTNodeProperties props ((key, j) :: rest) = SetBTNodeProperties props rest) ∧
    (∀ p, findPropertyByName props key = some p →
      SetBTNodeProperties props ((key, .jstr s) :: rest) =
        SetBTNodeProperties (writeProp props key (importText p s)) rest ∧
      SetBTNodeProperties props ((key, .jnum q) :: rest) =
        SetBTNodeProperties (writeProp props key (importText p (sanitizeFloat q 0))) rest ∧
      SetBTNodeProperties props ((key, .jbool b) :: rest) =
        SetBTNodeProperties (writeProp props key
          (importText p (if b then "true" else "false"))) rest ∧
      ((j = .jnull ∨ (∃ a, j = .jarr a) ∨ (∃ f, j = .jobj f)) →
        SetBTNodeProperties props ((key, j) :: rest) = SetBTNodeProperties props rest)) := by
  constructor
  · intro hnone
    simp [SetBTNodeProperties, hnone]
  · intro p hp
    refine ⟨?_, ?_, ?_, ?_⟩
    · simp [SetBTNodeProperties, hp, decodeJsonValue, tryGetString]
    · simp [SetBTNodeProperties, hp, decodeJsonValue, tryGetString]
    · simp [SetBTNodeProperties, hp, decodeJsonValue, tryGetString]
    · rintro (rfl | ⟨a, rfl⟩ | ⟨f, rfl⟩) <;>
        simp [SetBTNodeProperties, hp, decodeJsonValue, tryGetString]

-- ─── C6: the wrapped-value special case ──────────────────────────────────────

theorem getPropValue_writeProp (props : List (UEProperty × String)) (key w : String)
    (h : (props.find? (fun pv => pv.1.name == key)).isSome) :
    getPropValue (writeProp props key w) key = some w := by
  induction props with
  | nil => simp [List.find?] at h
  | cons pv rest ih =>
    obtain ⟨p, v⟩ := pv
    by_cases hk : p.name == key
    · simp [writeProp, hk, getPropValue, List.find?]
    · rw [List.find?] at h
      simp only [hk] at h
      simp only [writeProp, hk, Bool.false_eq_true, if_false]
      unfold getPropValue
      rw [List.find?]
      simp only [hk]
      exact ih h

/-- C6: for every imported attribute whose target type is a struct
exposing an inner field named `DefaultValue`, the decoded text `v` is
stored in the wrapped field-initializer form `(DefaultValue=v)`; for every
other attribute the decoded text is stored unwrapped. -/
theorem claim_C6 (props : List (UEProperty × String)) (key : String) (j : Json)
    (p : UEProperty) (v : String)
    (h1 : findPropertyByName props key = some p)
    (h2 : decodeJsonValue j = some v) :
    getPropValue (SetBTNodeProperties props [(key, j)]) key =
      some (if p.isStructProp && p.structHasDefaultValue
            then "(DefaultValue=" ++ v ++ ")" else v) := by
  have hsome : (props.find? (fun pv => pv.1.name == key)).isSome := by
    unfold findPropertyByName at h1
    cases hf : props.find? (fun pv => pv.1.name == key) <;> rw [hf] at h1 <;> simp_all
  simp [SetBTNodeProperties, h1, h2, importText]
  split <;> exact getPropValue_writeProp props key _ hsome

/-- A concrete editable float-like property, for witnesses. -/
def demoWaitProp : UEProperty := ⟨"WaitTime", true, false, false⟩

/-- A concrete node property state, for witnesses. -/
def demoProps : List (UEProperty × String) := [(demoWaitProp, "5.0")]

theorem claim_C5_witness :
    findPropertyByName demoProps "WaitTime" = some demoWaitProp ∧
    SetBTNodeProperties demoProps [("WaitTime", Json.jstr "2.5")] =
      SetBTNodeProperties (writeProp demoProps "WaitTime" (importText demoWaitProp "2.5")) [] ∧
    SetBTNodeProperties demoProps [("Unknown", Json.jstr "x")] =
      SetBTNodeProperties demoProps [] := by
  refine ⟨by decide, ?_, ?_⟩
  · exact ((claim_C5 demoProps "WaitTime" Json.jnull [] "2.5" 5 true).2
      demoWaitProp (by decide)).1
  · exact (claim_C5 demoProps "Unknown" (Json.jstr "x") [] "x" 5 true).1 (by decide)

/-- A concrete struct property exposing an inner `DefaultValue` field. -/
def demoKeyProp : UEProperty := ⟨"BlackboardKey", true, true, true⟩

/-- A concrete node property state with a wrapped-value slot. -/
def demoKeyProps : List (UEProperty × String) := [(demoKeyProp, "(DefaultValue=None)")]

theorem claim_C6_witness :
    getPropValue (SetBTNodeProperties demoKeyProps [("BlackboardKey", Json.jstr "Target")])
      "BlackboardKey" = some "(DefaultValue=Target)" := by
  have h := claim_C6 demoKeyProps "BlackboardKey" (Json.jstr "Target") demoKeyProp "Target"
    (by decide) (by decide)
  simpa [demoKeyProp] using h

-- ─── C8: the response envelope ───────────────────────────────────────────────

/-- The envelope shape every response actually satisfies: a boolean
`success` field, and — whenever `success` is `false` — a string `message`
field as well. -/
def envelopeOk (j : Json) : Prop :=
  (∃ b, getField (objFields j) "success" = some (.jbool b)) ∧
  (getField (objFields j) "success" = some (.jbool false) →
    ∃ m, getField (objFields j) "message" = some (.jstr m))

/-- A concrete childless live root composite, for the C8 counterexample. -/
def demoRoot : BTree :=
  .comp "Selector" "BTComposite_Selector_0" "BTComposite_Selector" [] [] []

/-- C8 counterexample: the success response of `GetBehaviorTreeStructure`
carries no `message` field at all, so not every response contains both a
boolean `success` and a string `message`. -/
theorem claim_C8_counterexample :
    getField (objFields (GetBehaviorTreeStructure (some demoRoot))) "success" =
      some (.jbool true) ∧
    getField (objFields (GetBehaviorTreeStructure (some demoRoot))) "message" = none := by
  constructor <;>
    simp [GetBehaviorTreeStructure, demoRoot, SerializeBTNode, serializeSlots,
      BTNodeInfoToJson_eq, objFields, asObject, getField_cons, getField_nil, getField_append]

/-- C8 as amended: every response of the four endpoints is a JSON object
with a boolean `success` field; every failure response also carries a
string `message` field; the tree-build endpoint carries `message` on
success as well.  (The success responses of the serializer, node-detail
and selected-node endpoints omit `message`.) -/
theorem BuildBehaviorTree_someInput (reg : Registry) (graph : Option (List Bool))
    (fields : JObj) :
    BuildBehaviorTree reg true graph (some fields) =
      (if !(graph.getD schemaDefaultNodes).contains true then
        failObj "No root node found in BT graph."
       else
        match (createRec reg fields).1 with
        | none => failObj "Failed to create root node from JSON. Check node_class names."
        | some _ =>
          Json.jobj [("success", .jbool true),
                     ("message", .jstr "Behavior tree built successfully from JSON.")]) := by
  cases graph <;> simp [BuildBehaviorTree, schemaDefaultNodes]

/-- C8 as amended: every response of the four endpoints is a JSON object
with a boolean `success` field; every failure response also carries a
string `message` field; the tree-build endpoint carries `message` on
success as well.  (The success responses of the serializer, node-detail
and selected-node endpoints omit `message`.) -/
theorem claim_C8 (bt : Option BTree) (nodeName : String) (sel : SelState)
    (reg : Registry) (assetValid : Bool) (graph : Option (List Bool))
    (parsed : Option JObj) :
    envelopeOk (GetBehaviorTreeStructure bt) ∧
    envelopeOk (GetBehaviorTreeNodeDetails bt nodeName) ∧
    envelopeOk (GetSelectedBTNodes sel) ∧
    envelopeOk (BuildBehaviorTree reg assetValid graph parsed) ∧
    (∃ m, getField (objFields (BuildBehaviorTree reg assetValid graph parsed)) "message" =
      some (.jstr m)) := by
  have hbuild : envelopeOk (BuildBehaviorTree reg assetValid graph parsed) ∧
      (∃ m, getField (objFields (BuildBehaviorTree reg assetValid graph parsed)) "message" =
        some (.jstr m)) := by
    cases assetValid with
    | false =>
      simp [BuildBehaviorTree, failObj, envelopeOk, objFields, asObject,
        getField_cons, getField_nil]
    | true =>
      cases parsed with
      | none =>
        simp [BuildBehaviorTree, failObj, envelopeOk, objFields, asObject,
          getField_cons, getField_nil]
      | some fields =>
        rw [BuildBehaviorTree_someInput]
        split
        · simp [failObj, envelopeOk, objFields, asObject, getField_cons, getField_nil]
        · cases (createRec reg fields).1 <;>
            simp [failObj, envelopeOk, objFields, asObject, getField_cons, getField_nil]
  refine ⟨?_, ?_, ?_, hbuild.1, hbuild.2⟩
  · cases bt <;>
      simp [GetBehaviorTreeStructure, failObj, envelopeOk, objFields, asObject,
        getField_cons, getField_nil]
  · cases bt with
    | none =>
      simp [GetBehaviorTreeNodeDetails, failObj, envelopeOk, objFields, asObject,
        getField_cons, getField_nil]
    | some root =>
      unfold GetBehaviorTreeNodeDetails
      cases hf : FindNodeByName root nodeName with
      | none =>
        simp [hf, failObj, envelopeOk, objFields, asObject, getField_cons, getField_nil]
      | some found =>
        simp [hf, envelopeOk, objFields, asObject, getField_cons, getField_nil, getField_append]
  · cases sel <;>
      simp [GetSelectedBTNodes, failObj, envelopeOk, objFields, asObject,
        getField_cons, getField_nil]

theorem claim_C8_witness :
    envelopeOk (GetBehaviorTreeStructure none) ∧
    envelopeOk (GetSelectedBTNodes .noForeground) :=
  ⟨(claim_C8 none "x" .noForeground [] true none none).1,
   (claim_C8 none "x" .noForeground [] true none none).2.2.1⟩

-- ─── C9: graph creation when the asset has no visual graph ───────────────────

/-- C9: when the asset has no visual graph, `BuildBehaviorTree` creates a
fresh graph whose schema default nodes include the root marker and
proceeds with the rebuild (its outcome is decided by the root record
build, never by the missing-root check); the missing-root failure envelope
is returned exactly when an existing graph contains no root node. -/
theorem claim_C9 (reg : Registry) (f : JObj) (ns : List Bool) :
    (BuildBehaviorTree reg true none (some f) =
      match (createRec reg f).1 with
      | none => failObj "Failed to create root node from JSON. Check node_class names."
      | some _ =>
        Json.jobj [("success", .jbool true),
                   ("message", .jstr "Behavior tree built successfully from JSON.")]) ∧
    (BuildBehaviorTree reg true none (some f) ≠ failObj "No root node found in BT graph.") ∧
    (BuildBehaviorTree reg true (some ns) (some f) = failObj "No root node found in BT graph."
      ↔ ns.contains true = false) := by
  have h1 : BuildBehaviorTree reg true none (some f) =
      match (createRec reg f).1 with
      | none => failObj "Failed to create root node from JSON. Check node_class names."
      | some _ =>
        Json.jobj [("success", .jbool true),
                   ("message", .jstr "Behavior tree built successfully from JSON.")] := by
    rw [BuildBehaviorTree_someInput]
    simp [schemaDefaultNodes]
  refine ⟨h1, ?_, ?_⟩
  · rw [h1]
    cases (createRec reg f).1 <;> simp [failObj]
  · rw [BuildBehaviorTree_someInput]
    cases hc : ns.contains true with
    | false =>
      simp only [Option.getD_some, hc, Bool.not_false, if_true]
    | true =>
      simp only [Option.getD_some, hc, Bool.not_true, Bool.false_eq_true, if_false]
      constructor
      · intro h
        exfalso
        cases hcr : (createRec reg f).1 <;> rw [hcr] at h <;> simp [failObj] at h
      · intro h
        simp at h

theorem claim_C9_witness :
    BuildBehaviorTree [] true none (some []) =
      match (createRec [] ([] : JObj)).1 with
      | none => failObj "Failed to create root node from JSON. Check node_class names."
      | some _ =>
        Json.jobj [("success", .jbool true),
                   ("message", .jstr "Behavior tree built successfully from JSON.")] :=
  (claim_C9 [] [] [false]).1

-- ─── C4: the leaf-count invariant ────────────────────────────────────────────

mutual
/-- All nodes reachable from a visual-graph node by following output links
(the node itself included), in depth-first order. -/
def allGNodes : GNode → List GNode
  | .mk k i d s ch => .mk k i d s ch :: allGNodesList ch
termination_by g => sizeOf g

/-- `allGNodes` over a list of linked children. -/
def allGNodesList : List GNode → List GNode
  | [] => []
  | c :: rest => allGNodes c ++ allGNodesList rest
termination_by l => sizeOf l
end

/-- A graph node whose variant is one of the two task variants. -/
def isTaskKind (g : GNode) : Bool :=
  g.kind == .task || g.kind == .subtreeTask

/-- A graph node with no output-linked children. -/
def isChildless (g : GNode) : Bool :=
  g.children.isEmpty

theorem CountSubtreeLeaves_pos (g : GNode) : 1 ≤ CountSubtreeLeaves g := by
  cases g with
  | mk k i d s ch =>
    rw [CountSubtreeLeaves]
    exact le_max_left 1 _

mutual
theorem count_eq_childless :
    ∀ g : GNode, CountSubtreeLeaves g = (allGNodes g).countP isChildless := by
  intro g
  cases g with
  | mk k i d s ch =>
    rw [CountSubtreeLeaves, allGNodes]
    cases ch with
    | nil =>
      simp [sumSubtreeLeaves, allGNodesList, isChildless, GNode.children]
    | cons c rest =>
      have hsum := sum_eq_childlessList (c :: rest)
      have hpos : 1 ≤ sumSubtreeLeaves (c :: rest) := by
        rw [sumSubtreeLeaves]
        have := CountSubtreeLeaves_pos c
        omega
      have hchild : isChildless (GNode.mk k i d s (c :: rest)) = false := by
        simp [isChildless, GNode.children]
      rw [List.countP_cons, hchild, ← hsum]
      simp
      omega
termination_by g => sizeOf g

theorem sum_eq_childlessList :
    ∀ cs : List GNode, sumSubtreeLeaves cs = (allGNodesList cs).countP isChildless := by
  intro cs
  cases cs with
  | nil => rw [sumSubtreeLeaves, allGNodesList]; rfl
  | cons c rest =>
    rw [sumSubtreeLeaves, allGNodesList, List.countP_append,
      count_eq_childless c, sum_eq_childlessList rest]
termination_by cs => sizeOf cs
end

/-- C4 counterexample: in a visual graph whose root composite links a task
and a childless composite, `CountSubtreeLeaves` of the root is 2 while
only one Task-classified node is reachable, so the claimed equality with
the Task count fails. -/
theorem claim_C4_counterexample :
    CountSubtreeLeaves (.mk .composite ⟨"BTComposite_Selector", []⟩ [] []
        [.mk .task ⟨"BTTask_Wait", []⟩ [] [] [],
         .mk .composite ⟨"BTComposite_Sequence", []⟩ [] [] []]) = 2 ∧
    (allGNodes (.mk .composite ⟨"BTComposite_Selector", []⟩ [] []
        [.mk .task ⟨"BTTask_Wait", []⟩ [] [] [],
         .mk .composite ⟨"BTComposite_Sequence", []⟩ [] [] []])).countP isTaskKind = 1 := by
  constructor <;>
    simp [CountSubtreeLeaves, sumSubtreeLeaves, allGNodes, allGNodesList,
      isTaskKind, GNode.kind, List.countP_cons, List.countP_append]

/-- C4 as amended: `CountSubtreeLeaves` of any visual-graph node counts the
reachable nodes with no output-linked children (so it is at least 1 even
for a childless root), and it equals the number of reachable
Task-classified nodes exactly on graphs where the childless nodes are
precisely the Task-classified ones — a childless composite also counts as
a leaf, which is what the counterexample exploits. -/
theorem claim_C4 (g : GNode) :
    CountSubtreeLeaves g = (allGNodes g).countP isChildless ∧
    1 ≤ CountSubtreeLeaves g ∧
    ((∀ n ∈ allGNodes g, isChildless n = isTaskKind n) →
      CountSubtreeLeaves g = (allGNodes g).countP isTaskKind) := by
  refine ⟨count_eq_childless g, CountSubtreeLeaves_pos g, ?_⟩
  intro h
  rw [count_eq_childless g]
  exact List.countP_congr (by intro a ha; rw [h a ha])

theorem claim_C4_witness :
    CountSubtreeLeaves (.mk .composite ⟨"BTComposite_Selector", []⟩ [] []
        [.mk .task ⟨"BTTask_Wait", []⟩ [] [] []]) =
      (allGNodes (.mk .composite ⟨"BTComposite_Selector", []⟩ [] []
        [.mk .task ⟨"BTTask_Wait", []⟩ [] [] []])).countP isTaskKind :=
  (claim_C4 _).2.2 (by
    simp [allGNodes, allGNodesList, isChildless, isTaskKind, GNode.kind, GNode.children])

-- ─── C7: lookup order and completeness ───────────────────────────────────────

/-- The match test of the lookup, on a visit-order entry: short display
name or stable object name. -/
def nameMatch (name : String) (f : BTFound) : Bool :=
  f.fNodeName == name || f.fObjName == name

mutual
/-- All decorators attached to child slots anywhere in the tree. -/
def treeDecorators : BTree → List BTModifier
  | .comp _ _ _ _ _ children => slotsDecorators children
  | .task _ _ _ _ _ => []
termination_by t => sizeOf t

/-- `treeDecorators` over a list of child slots. -/
def slotsDecorators : List BTSlot → List BTModifier
  | [] => []
  | .slot decs child :: rest => decs ++ treeDecorators child ++ slotsDecorators rest
termination_by l => sizeOf l
end

mutual
/-- All services attached to task nodes anywhere in or below the node
(for a task node, its own services). -/
def treeTaskServices : BTree → List BTModifier
  | .comp _ _ _ _ _ children => slotsTaskServices children
  | .task _ _ _ _ svcs => svcs
termination_by t => sizeOf t

/-- `treeTaskServices` over a list of child slots. -/
def slotsTaskServices : List BTSlot → List BTModifier
  | [] => []
  | .slot _ child :: rest => treeTaskServices child ++ slotsTaskServices rest
termination_by l => sizeOf l
end

theorem nameMatch_sub (name : String) (m : BTModifier) :
    nameMatch name (.sub m) = m.nameHit name := rfl

theorem findSlotChild_eq (t : BTree) (name : String) :
    findSlotChild t name = FindNodeByName t name := by
  cases t with
  | comp n o c p svcs children => rw [findSlotChild]
  | task n o c p svcs => rw [findSlotChild, FindNodeByName]

theorem find?_map_sub (svcs : List BTModifier) (name : String) :
    (svcs.map BTFound.sub).find? (nameMatch name) =
      (svcs.find? (fun s => s.nameHit name)).map BTFound.sub := by
  rw [List.find?_map]
  rfl

mutual
theorem find_eq_visitOrder :
    ∀ (t : BTree) (name : String),
      FindNodeByName t name = (visitOrderSpec t).find? (nameMatch name)
  | .comp n o c p svcs children, name => by
    rw [FindNodeByName, visitOrderSpec]
    by_cases h : (n == name || o == name : Bool)
    · have h2 : nameMatch name (.tree (.comp n o c p svcs children)) = true := h
      rw [if_pos h, List.find?_cons_of_pos _ h2]
    · have h2 : ¬ nameMatch name (.tree (.comp n o c p svcs children)) = true := h
      rw [if_neg h, List.find?_cons_of_neg _ h2, List.find?_append, find?_map_sub,
        find_eq_visitOrder_slots children name]
  | .task n o c p svcs, name => by
    rw [FindNodeByName, visitOrderSpec]
    by_cases h : (n == name || o == name : Bool)
    · have h2 : nameMatch name (.tree (.task n o c p svcs)) = true := h
      rw [if_pos h, List.find?_cons_of_pos _ h2]
    · have h2 : ¬ nameMatch name (.tree (.task n o c p svcs)) = true := h
      rw [if_neg h, List.find?_cons_of_neg _ h2, find?_map_sub]
termination_by t => sizeOf t

theorem find_eq_visitOrder_slots :
    ∀ (slots : List BTSlot) (name : String),
      findInSlots slots name = (slotsVisitOrder slots).find? (nameMatch name)
  | [], name => by
    rw [findInSlots, slotsVisitOrder]
    rfl
  | .slot decs child :: rest, name => by
    rw [findInSlots, slotsVisitOrder, List.find?_append, List.find?_append, find?_map_sub,
      find_eq_visitOrder_slots rest name, Option.or_assoc, findSlotChild_eq child name,
      find_eq_visitOrder child name]
termination_by slots => sizeOf slots
end

mutual
theorem dec_mem_visitOrder :
    ∀ (t : BTree) (d : BTModifier), d ∈ treeDecorators t → BTFound.sub d ∈ visitOrderSpec t
  | .comp n o c p svcs children, d => by
    intro hd
    rw [treeDecorators] at hd
    rw [visitOrderSpec]
    exact List.mem_cons_of_mem _ (List.mem_append_right _ (dec_mem_slots children d hd))
  | .task n o c p svcs, d => by
    intro hd
    rw [treeDecorators] at hd
    simp at hd
termination_by t => sizeOf t

theorem dec_mem_slots :
    ∀ (slots : List BTSlot) (d : BTModifier),
      d ∈ slotsDecorators slots → BTFound.sub d ∈ slotsVisitOrder slots
  | [], d => by
    intro hd
    rw [slotsDecorators] at hd
    simp at hd
  | .slot decs child :: rest, d => by
    intro hd
    rw [slotsDecorators] at hd
    rw [slotsVisitOrder]
    rcases List.mem_append.mp hd with h | h
    · rcases List.mem_append.mp h with h2 | h2
      · exact List.mem_append_left _ (List.mem_append_left _ (List.mem_map_of_mem _ h2))
      · exact List.mem_append_left _ (List.mem_append_right _ (dec_mem_visitOrder child d h2))
    · exact List.mem_append_right _ (dec_mem_slots rest d h)
termination_by slots => sizeOf slots
end

mutual
theorem taskSvc_mem_visitOrder :
    ∀ (t : BTree) (m : BTModifier), m ∈ treeTaskServices t → BTFound.sub m ∈ visitOrderSpec t
  | .comp n o c p svcs children, m => by
    intro hm
    rw [treeTaskServices] at hm
    rw [visitOrderSpec]
    exact List.mem_cons_of_mem _ (List.mem_append_right _ (taskSvc_mem_slots children m hm))
  | .task n o c p svcs, m => by
    intro hm
    rw [treeTaskServices] at hm
    rw [visitOrderSpec]
    exact List.mem_cons_of_mem _ (List.mem_map_of_mem _ hm)
termination_by t => sizeOf t

theorem taskSvc_mem_slots :
    ∀ (slots : List BTSlot) (m : BTModifier),
      m ∈ slotsTaskServices slots → BTFound.sub m ∈ slotsVisitOrder slots
  | [], m => by
    intro hm
    rw [slotsTaskServices] at hm
    simp at hm
  | .slot decs child :: rest, m => by
    intro hm
    rw [slotsTaskServices] at hm
    rw [slotsVisitOrder]
    rcases List.mem_append.mp hm with h | h
    · exact List.mem_append_left _ (List.mem_append_right _ (taskSvc_mem_visitOrder child m h))
    · exact List.mem_append_right _ (taskSvc_mem_slots rest m h)
termination_by slots => sizeOf slots
end

/-- C7: `FindNodeByName` returns exactly the first entry of the visit
order of §4.5 — root, root services, then per slot decorators before the
child subtree (composite recursively, task then task services) — that
matches either identity string; consequently every slot decorator and
every task service is findable under either of its names. -/
theorem claim_C7 (root : BTree) (name : String) :
    FindNodeByName root name = (visitOrderSpec root).find? (nameMatch name) ∧
    (∀ d ∈ treeDecorators root,
      (FindNodeByName root d.nodeName).isSome ∧ (FindNodeByName root d.objName).isSome) ∧
    (∀ m ∈ treeTaskServices root,
      (FindNodeByName root m.nodeName).isSome ∧ (FindNodeByName root m.objName).isSome) := by
  refine ⟨find_eq_visitOrder root name, ?_, ?_⟩
  · intro d hd
    constructor <;>
      · rw [find_eq_visitOrder, List.find?_isSome]
        exact ⟨.sub d, dec_mem_visitOrder root d hd, by simp [nameMatch, BTFound.fNodeName,
          BTFound.fObjName]⟩
  · intro m hm
    constructor <;>
      · rw [find_eq_visitOrder, List.find?_isSome]
        exact ⟨.sub m, taskSvc_mem_visitOrder root m hm, by simp [nameMatch, BTFound.fNodeName,
          BTFound.fObjName]⟩

/-- A concrete decorator, for the C7 witness. -/
def demoDecorator : BTModifier :=
  ⟨"Is Enemy Near", "BTDecorator_Blackboard_0", "BTDecorator_Blackboard", []⟩

/-- A concrete task-attached service, for the C7 witness. -/
def demoService : BTModifier :=
  ⟨"Update Target", "BTService_DefaultFocus_0", "BTService_DefaultFocus", []⟩

/-- A concrete tree with one decorated task child carrying a service. -/
def demoTree : BTree :=
  .comp "Selector" "BTComposite_Selector_0" "BTComposite_Selector" [] []
    [.slot [demoDecorator] (.task "Wait" "BTTask_Wait_0" "BTTask_Wait" [] [demoService])]

theorem claim_C7_witness :
    (FindNodeByName demoTree "Is Enemy Near").isSome ∧
    (FindNodeByName demoTree "BTService_DefaultFocus_0").isSome := by
  constructor
  · exact ((claim_C7 demoTree "Is Enemy Near").2.1 demoDecorator
      (by simp [demoTree, treeDecorators, slotsDecorators])).1
  · exact ((claim_C7 demoTree "BTService_DefaultFocus_0").2.2 demoService
      (by simp [demoTree, treeTaskServices, slotsTaskServices])).2


-- ─── C2: partial failure containment ─────────────────────────────────────────

theorem createRec_unresolvable (reg : Registry) (fb : JObj)
    (hbadHas : hasField fb "node_class" = true)
    (hbad : FindBTNodeClass reg (getStringField fb "node_class") = none) :
    createRec reg fb =
      (none, ["BuildBT: Class \x27" ++ getStringField fb "node_class" ++ "\x27 not found"]) := by
  rw [createRec]
  simp [hbadHas, hbad]

/-- C2: a `children` array with one unresolvable record among two
buildable ones yields a composite holding exactly the two built children
in sibling order, with the omission logged, and the whole
`BuildBehaviorTree` call still succeeds; an unresolvable `node_class` at
the root record instead fails the whole operation with a `success:false`
envelope. -/
theorem claim_C2 (reg : Registry) (parentFields f1 fb f2 : JObj)
    (pcls : UEClass) (g1 g2 : GNode) (w1 w2 : List String)
    (hpc : hasField parentFields "node_class" = true)
    (hfind : FindBTNodeClass reg (getStringField parentFields "node_class") = some pcls)
    (hcomp : pcls.isChildOfName "BTCompositeNode" = true)
    (hch : getField parentFields "children" = some (.jarr [.jobj f1, .jobj fb, .jobj f2]))
    (h1 : createRec reg f1 = (some g1, w1))
    (h2 : createRec reg f2 = (some g2, w2))
    (hbadHas : hasField fb "node_class" = true)
    (hbad : FindBTNodeClass reg (getStringField fb "node_class") = none) :
    (∃ g, (createRec reg parentFields).1 = some g ∧ g.children = [g1, g2]) ∧
    ("BuildBT: Class \x27" ++ getStringField fb "node_class" ++ "\x27 not found")
      ∈ (createRec reg parentFields).2 ∧
    BuildBehaviorTree reg true (some [true]) (some parentFields) =
      Json.jobj [("success", .jbool true),
                 ("message", .jstr "Behavior tree built successfully from JSON.")] ∧
    (∀ rootf : JObj, hasField rootf "node_class" = true →
      FindBTNodeClass reg (getStringField rootf "node_class") = none →
      BuildBehaviorTree reg true (some [true]) (some rootf) =
        failObj "Failed to create root node from JSON. Check node_class names.") := by
  have hbadRec := createRec_unresolvable reg fb hbadHas hbad
  have hcc : createChildren reg [.jobj f1, .jobj fb, .jobj f2] =
      ([g1, g2], w1 ++ ("BuildBT: Class \x27" ++ getStringField fb "node_class" ++
        "\x27 not found") :: w2) := by
    rw [createChildren, createChildren, createChildren, createChildren]
    simp [h1, h2, hbadRec]
  have hhasch : hasField parentFields "children" = true := by
    rw [hasField, hch]
    rfl
  have harr : asArrayField parentFields "children" = [.jobj f1, .jobj fb, .jobj f2] := by
    rw [asArrayField, hch]
    rfl
  have hparent : ∃ decw svcw,
      createRec reg parentFields =
        (some (.mk (if CheckClassAncestor pcls "BTComposite_SimpleParallel" then .simpleParallel
            else .composite)
          ⟨pcls.name, applyProps pcls.defaults parentFields⟩
          (buildModifiers reg "BTDecorator" "Decorator"
            (asArrayField parentFields "decorators")).1
          (buildModifiers reg "BTService" "Service"
            (asArrayField parentFields "services")).1
          [g1, g2]),
         decw ++ svcw ++ (w1 ++ ("BuildBT: Class \x27" ++ getStringField fb "node_class" ++
          "\x27 not found") :: w2)) := by
    refine ⟨(buildModifiers reg "BTDecorator" "Decorator"
        (asArrayField parentFields "decorators")).2,
      (buildModifiers reg "BTService" "Service"
        (asArrayField parentFields "services")).2, ?_⟩
    rw [createRec]
    simp only [hpc, hfind, Bool.not_true, Bool.false_eq_true, if_false]
    cases hsp : CheckClassAncestor pcls "BTComposite_SimpleParallel" with
    | true =>
      simp only [if_true, hcomp, hhasch, harr, hcc]
      simp
    | false =>
      simp only [Bool.false_eq_true, if_false, hcomp, if_true, hhasch, harr, hcc]
      simp
  obtain ⟨decw, svcw, hp⟩ := hparent
  refine ⟨⟨_, by rw [hp], by simp [GNode.children]⟩, ?_, ?_, ?_⟩
  · rw [hp]
    simp
  · rw [BuildBehaviorTree_someInput]
    simp only [Option.getD_some, List.contains_cons]
    rw [hp]
    simp
  · intro rootf hr1 hr2
    have := createRec_unresolvable reg rootf hr1 hr2
    rw [BuildBehaviorTree_someInput]
    simp only [Option.getD_some, List.contains_cons]
    rw [this]
    simp


/-- A concrete selector composite class, for witnesses. -/
def demoSelectorClass : UEClass :=
  ⟨"BTComposite_Selector", ["BTComposite_Selector", "BTCompositeNode", "BTNode"], false, []⟩

/-- A concrete wait task class with one default property, for witnesses. -/
def demoWaitClass : UEClass :=
  ⟨"BTTask_Wait", ["BTTask_Wait", "BTTaskNode", "BTNode"], false, [(demoWaitProp, "5.0")]⟩

/-- A concrete registry, for witnesses. -/
def demoRegistry : Registry := [demoSelectorClass, demoWaitClass]

def demoTaskFields : JObj := [("node_class", .jstr "BTTask_Wait")]

def demoBadFields : JObj := [("node_class", .jstr "BTTask_Missing")]

def demoParentFields : JObj :=
  [("node_class", .jstr "BTComposite_Selector"),
   ("children", .jarr [.jobj demoTaskFields, .jobj demoBadFields, .jobj demoTaskFields])]

/-- The graph node the builder produces for `demoTaskFields`. -/
def demoBuiltWait : GNode := .mk .task ⟨"BTTask_Wait", [(demoWaitProp, "5.0")]⟩ [] [] []

theorem createRec_demoTask : createRec demoRegistry demoTaskFields = (some demoBuiltWait, []) := by
  rw [createRec]
  simp [demoTaskFields, demoRegistry, demoSelectorClass, demoWaitClass, demoBuiltWait,
    FindBTNodeClass, hasField, getField, getStringField, asString, tryGetString,
    UEClass.isChildOfName, CheckClassAncestor, applyProps, asObjectField, asArrayField,
    buildModifiers, List.find?]

theorem claim_C2_witness :
    (∃ g, (createRec demoRegistry demoParentFields).1 = some g ∧
      g.children = [demoBuiltWait, demoBuiltWait]) ∧
    ("BuildBT: Class \x27" ++ getStringField demoBadFields "node_class" ++ "\x27 not found")
      ∈ (createRec demoRegistry demoParentFields).2 ∧
    BuildBehaviorTree demoRegistry true (some [true]) (some demoParentFields) =
      Json.jobj [("success", .jbool true),
                 ("message", .jstr "Behavior tree built successfully from JSON.")] := by
  have h := claim_C2 demoRegistry demoParentFields demoTaskFields demoBadFields demoTaskFields
    demoSelectorClass demoBuiltWait demoBuiltWait [] []
    (by decide)
    (by decide)
    (by decide)
    (by rfl)
    createRec_demoTask
    createRec_demoTask
    (by decide)
    (by decide)
  exact ⟨h.1, h.2.1, h.2.2.1⟩


-- ─── Round-trip machinery (C1, C3) ───────────────────────────────────────────

/-- The structural summary compared across the round trip: class name,
property values, decorator and service attachments (class plus property
values), children in order. -/
inductive Shape where
  | node (cls : String) (props : List (UEProperty × String))
      (decorators : List (String × List (UEProperty × String)))
      (services : List (String × List (UEProperty × String)))
      (children : List Shape)

/-- The default property values of the registry class with this name. -/
def clsDefaults (reg : Registry) (clsName : String) : List (UEProperty × String) :=
  match FindBTNodeClass reg clsName with
  | some c => c.defaults
  | none => []

/-- The shape a rebuilt modifier carries: its class with class defaults. -/
def modShape (reg : Registry) (m : BTModifier) : String × List (UEProperty × String) :=
  (m.cls, clsDefaults reg m.cls)

mutual
/-- The shape of a built visual-graph subtree. -/
def gShape : GNode → Shape
  | .mk _ i decs svcs ch =>
    .node i.cls i.props (decs.map (fun r => (r.cls, r.props)))
      (svcs.map (fun r => (r.cls, r.props))) (gShapeList ch)
termination_by g => sizeOf g

/-- `gShape` over a list of linked children. -/
def gShapeList : List GNode → List Shape
  | [] => []
  | c :: rest => gShape c :: gShapeList rest
termination_by l => sizeOf l
end

mutual
/-- The shape the round trip is expected to reproduce from a live subtree
(with the decorators of the enclosing slot): same classes, child order and
attachment points, but class-default property values — the tree serializer
exports no attributes. -/
def defaultShape (reg : Registry) (decs : List BTModifier) : BTree → Shape
  | .comp _ _ cls _ svcs children =>
    .node cls (clsDefaults reg cls) (decs.map (modShape reg)) (svcs.map (modShape reg))
      (defaultShapeSlots reg children)
  | .task _ _ cls _ svcs =>
    .node cls (clsDefaults reg cls) (decs.map (modShape reg)) (svcs.map (modShape reg)) []
termination_by t => sizeOf t

/-- `defaultShape` over a list of child slots. -/
def defaultShapeSlots (reg : Registry) : List BTSlot → List Shape
  | [] => []
  | .slot ds child :: rest => defaultShape reg ds child :: defaultShapeSlots reg rest
termination_by l => sizeOf l
end

/-- The class name resolves in the registry to a class descending from the
named base. -/
def resolvesKind (reg : Registry) (clsName base : String) : Bool :=
  match FindBTNodeClass reg clsName with
  | some c => c.isChildOfName base
  | none => false

mutual
/-- Every class name used in the live tree resolves with the expected
classification: composites to `UBTCompositeNode` descendants, tasks to
`UBTTaskNode` descendants, services to `UBTService` descendants. -/
def wellTypedT (reg : Registry) : BTree → Bool
  | .comp _ _ cls _ svcs children =>
    resolvesKind reg cls "BTCompositeNode" &&
    svcs.all (fun s => resolvesKind reg s.cls "BTService") &&
    wellTypedSlots reg children
  | .task _ _ cls _ svcs =>
    resolvesKind reg cls "BTTaskNode" &&
    svcs.all (fun s => resolvesKind reg s.cls "BTService")
termination_by t => sizeOf t

/-- `wellTypedT` over child slots, with decorators resolving to
`UBTDecorator` descendants. -/
def wellTypedSlots (reg : Registry) : List BTSlot → Bool
  | [] => true
  | .slot ds child :: rest =>
    ds.all (fun d => resolvesKind reg d.cls "BTDecorator") &&
    wellTypedT reg child && wellTypedSlots reg rest
termination_by l => sizeOf l
end

theorem FindBTNodeClass_props {reg : Registry} {x : String} {c : UEClass}
    (h : FindBTNodeClass reg x = some c) :
    c.name = x ∧ c.isChildOfName "BTNode" = true ∧ c.abstractFlag = false := by
  have hp := List.find?_some h
  simp only [Bool.and_eq_true, beq_iff_eq, Bool.not_eq_eq_eq_not, Bool.not_true] at hp
  exact ⟨hp.1.1, hp.1.2, by simpa using hp.2⟩

theorem clsDefaults_of_find {reg : Registry} {x : String} {c : UEClass}
    (h : FindBTNodeClass reg x = some c) : clsDefaults reg x = c.defaults := by
  rw [clsDefaults, h]

theorem resolvesKind_some {reg : Registry} {x base : String}
    (h : resolvesKind reg x base = true) :
    ∃ c, FindBTNodeClass reg x = some c ∧ c.isChildOfName base = true := by
  rw [resolvesKind] at h
  cases hf : FindBTNodeClass reg x with
  | none => rw [hf] at h; simp at h
  | some c => rw [hf] at h; exact ⟨c, rfl, h⟩

/-- The serializer's node record renders to this field list. -/
def infoJsonFields (n c : String) (dc dn sc sn : List String)
    (ch : List FMCPythonBTNodeInfo) : JObj :=
  [("node_name", .jstr n), ("node_class", .jstr c)]
    ++ (if dc.length > 0 then [("decorators", .jarr (modifierEntriesToJson dc dn))] else [])
    ++ (if sc.length > 0 then [("services", .jarr (modifierEntriesToJson sc sn))] else [])
    ++ (if ch.length > 0 then [("children", .jarr (infoChildrenToJson ch))] else [])

theorem BTNodeInfoToJson_fields (n c : String) (dc dn sc sn : List String)
    (ch : List FMCPythonBTNodeInfo) :
    BTNodeInfoToJson (.mk n c dc dn sc sn ch) = .jobj (infoJsonFields n c dc dn sc sn ch) := by
  rw [BTNodeInfoToJson, infoJsonFields]

theorem infoJsonFields_nodeClass (n c dc dn sc sn ch) :
    getField (infoJsonFields n c dc dn sc sn ch) "node_class" = some (.jstr c) := by
  rw [infoJsonFields]
  simp [getField_append, getField_cons]

theorem infoJsonFields_properties (n c dc dn sc sn ch) :
    getField (infoJsonFields n c dc dn sc sn ch) "properties" = none := by
  rw [infoJsonFields]
  by_cases h1 : dc.length > 0 <;> by_cases h2 : sc.length > 0 <;> by_cases h3 : ch.length > 0 <;>
    simp [h1, h2, h3, getField_append, getField_cons, getField_nil]

theorem infoJsonFields_decorators (n c dc dn sc sn ch) :
    getField (infoJsonFields n c dc dn sc sn ch) "decorators" =
      if dc.length > 0 then some (.jarr (modifierEntriesToJson dc dn)) else none := by
  rw [infoJsonFields]
  by_cases h1 : dc.length > 0 <;> by_cases h2 : sc.length > 0 <;> by_cases h3 : ch.length > 0 <;>
    simp [h1, h2, h3, getField_append, getField_cons, getField_nil]

theorem infoJsonFields_services (n c dc dn sc sn ch) :
    getField (infoJsonFields n c dc dn sc sn ch) "services" =
      if sc.length > 0 then some (.jarr (modifierEntriesToJson sc sn)) else none := by
  rw [infoJsonFields]
  by_cases h1 : dc.length > 0 <;> by_cases h2 : sc.length > 0 <;> by_cases h3 : ch.length > 0 <;>
    simp [h1, h2, h3, getField_append, getField_cons, getField_nil]

theorem infoJsonFields_children (n c dc dn sc sn ch) :
    getField (infoJsonFields n c dc dn sc sn ch) "children" =
      if ch.length > 0 then some (.jarr (infoChildrenToJson ch)) else none := by
  rw [infoJsonFields]
  by_cases h1 : dc.length > 0 <;> by_cases h2 : sc.length > 0 <;> by_cases h3 : ch.length > 0 <;>
    simp [h1, h2, h3, getField_append, getField_cons, getField_nil]


theorem objFields_jobj (f : JObj) : objFields (.jobj f) = f := rfl

theorem BTNodeInfoToJson_isObj (i : FMCPythonBTNodeInfo) :
    BTNodeInfoToJson i = .jobj (objFields (BTNodeInfoToJson i)) := by
  obtain ⟨n, c, dc, dn, sc, sn, ch⟩ := i
  rw [BTNodeInfoToJson_fields]
  rfl

theorem buildModifiers_entries (reg : Registry) (base label : String) :
    ∀ ms : List BTModifier,
      ms.all (fun m => resolvesKind reg m.cls base) = true →
      buildModifiers reg base label
          (modifierEntriesToJson (ms.map (·.cls)) (ms.map (·.nodeName))) =
        (ms.map (fun m => ⟨m.cls, clsDefaults reg m.cls⟩), [])
  | [], _ => by
    rw [List.map_nil, List.map_nil, modifierEntriesToJson, buildModifiers, List.map_nil]
  | m :: ms, h => by
    simp only [List.all_cons, Bool.and_eq_true] at h
    obtain ⟨c, hfind, hbase⟩ := resolvesKind_some h.1
    have hname := (FindBTNodeClass_props hfind).1
    have hstep : modStep reg base label
        (.jobj [("class", .jstr m.cls), ("name", .jstr m.nodeName)]) =
        .ok ⟨m.cls, clsDefaults reg m.cls⟩ := by
      rw [modStep]
      simp [asObject, hasField, getField_cons, getField_nil, getStringField, asString,
        tryGetString, hfind, hbase, applyProps, asObjectField, hname,
        clsDefaults_of_find hfind]
    rw [List.map_cons, List.map_cons, modifierEntriesToJson, buildModifiers,
      buildModifiers_entries reg base label ms h.2, hstep, List.map_cons]

/-- The node-kind classification chain of `CreateBTGraphNodeRecursive`. -/
def gKindOf (c : UEClass) : Option GKind :=
  if CheckClassAncestor c "BTComposite_SimpleParallel" then some GKind.simpleParallel
  else if c.isChildOfName "BTCompositeNode" then some GKind.composite
  else if CheckClassAncestor c "BTTask_RunBehavior"
      || CheckClassAncestor c "BTTask_RunBehaviorDynamic" then some GKind.subtreeTask
  else if c.isChildOfName "BTTaskNode" then some GKind.task
  else none

theorem gKind_of_comp {c : UEClass} (h : c.isChildOfName "BTCompositeNode" = true) :
    ∃ k, gKindOf c = some k := by
  rw [gKindOf]
  by_cases hsp : CheckClassAncestor c "BTComposite_SimpleParallel" <;> simp [hsp, h]

theorem gKind_of_task {c : UEClass} (h : c.isChildOfName "BTTaskNode" = true) :
    ∃ k, gKindOf c = some k := by
  rw [gKindOf]
  by_cases h1 : CheckClassAncestor c "BTComposite_SimpleParallel" <;>
    by_cases h2 : c.isChildOfName "BTCompositeNode" <;>
      by_cases h3 : (CheckClassAncestor c "BTTask_RunBehavior"
        || CheckClassAncestor c "BTTask_RunBehaviorDynamic" : Bool) <;>
        simp [h1, h2, h3, h]

theorem createRec_resolved (reg : Registry) (fields : JObj) (cls : String) (c : UEClass)
    (k : GKind)
    (hhas : hasField fields "node_class" = true)
    (hstr : getStringField fields "node_class" = cls)
    (hfind : FindBTNodeClass reg cls = some c)
    (hk : gKindOf c = some k) :
    createRec reg fields =
      (some (.mk k ⟨c.name, applyProps c.defaults fields⟩
          (buildModifiers reg "BTDecorator" "Decorator" (asArrayField fields "decorators")).1
          (buildModifiers reg "BTService" "Service" (asArrayField fields "services")).1
          (if c.isChildOfName "BTCompositeNode" then
            (if hasField fields "children" then
              createChildren reg (asArrayField fields "children") else ([], []))
           else ([], [])).1),
       (buildModifiers reg "BTDecorator" "Decorator" (asArrayField fields "decorators")).2
         ++ (buildModifiers reg "BTService" "Service" (asArrayField fields "services")).2
         ++ (if c.isChildOfName "BTCompositeNode" then
              (if hasField fields "children" then
                createChildren reg (asArrayField fields "children") else ([], []))
             else ([], [])).2) := by
  rw [gKindOf] at hk
  rw [createRec]
  simp only [hhas, hstr, hfind, Bool.not_true, Bool.false_eq_true, if_false]
  rw [hk]
  simp [dite_eq_ite]


theorem buildModifiers_fromField (reg : Registry) (base label : String)
    (ms : List BTModifier) (F : JObj) (key : String)
    (hget : getField F key =
      if (ms.map (fun m => m.cls)).length > 0
      then some (.jarr (modifierEntriesToJson (ms.map (·.cls)) (ms.map (·.nodeName))))
      else none)
    (hall : ms.all (fun m => resolvesKind reg m.cls base) = true) :
    buildModifiers reg base label (asArrayField F key) =
      (ms.map (fun m => ⟨m.cls, clsDefaults reg m.cls⟩), []) := by
  cases ms with
  | nil =>
    rw [asArrayField, hget]
    simp [buildModifiers]
  | cons m ms' =>
    rw [asArrayField, hget]
    simp only [List.length_map, List.length_cons, gt_iff_lt, Nat.succ_pos, if_true]
    exact buildModifiers_entries reg base label (m :: ms') hall

mutual
theorem roundtrip_node :
    ∀ (t : BTree) (extDecs : List BTModifier) (reg : Registry),
      wellTypedT reg t = true →
      extDecs.all (fun d => resolvesKind reg d.cls "BTDecorator") = true →
      ∃ g, createRec reg
          (objFields (BTNodeInfoToJson (addSlotDecorators (SerializeBTNode t) extDecs)))
          = (some g, []) ∧ gShape g = defaultShape reg extDecs t
  | .comp n o cls props svcs children, extDecs, reg => by
    intro hwt hdecs
    rw [wellTypedT] at hwt
    simp only [Bool.and_eq_true] at hwt
    obtain ⟨⟨hcls, hsvcs⟩, hslots⟩ := hwt
    obtain ⟨c, hfind, hcomp⟩ := resolvesKind_some hcls
    obtain ⟨hname, _, _⟩ := FindBTNodeClass_props hfind
    obtain ⟨k, hk⟩ := gKind_of_comp hcomp
    have hFeq : BTNodeInfoToJson (addSlotDecorators
        (SerializeBTNode (.comp n o cls props svcs children)) extDecs) =
        .jobj (infoJsonFields n cls (extDecs.map (·.cls)) (extDecs.map (·.nodeName))
          (svcs.map (·.cls)) (svcs.map (·.nodeName)) (serializeSlots children)) := by
      rw [SerializeBTNode, addSlotDecorators, BTNodeInfoToJson_fields]
      simp only [List.nil_append]
    set F := infoJsonFields n cls (extDecs.map (·.cls)) (extDecs.map (·.nodeName))
      (svcs.map (·.cls)) (svcs.map (·.nodeName)) (serializeSlots children) with hFdef
    have hhas : hasField F "node_class" = true := by
      rw [hasField, infoJsonFields_nodeClass]
      rfl
    have hstr : getStringField F "node_class" = cls := by
      rw [getStringField, infoJsonFields_nodeClass]
      rfl
    have happ : applyProps c.defaults F = c.defaults := by
      rw [applyProps, asObjectField, infoJsonFields_properties]
    have hdec : buildModifiers reg "BTDecorator" "Decorator" (asArrayField F "decorators") =
        (extDecs.map (fun m => ⟨m.cls, clsDefaults reg m.cls⟩), []) :=
      buildModifiers_fromField reg "BTDecorator" "Decorator" extDecs F "decorators"
        (infoJsonFields_decorators _ _ _ _ _ _ _) hdecs
    have hsvc : buildModifiers reg "BTService" "Service" (asArrayField F "services") =
        (svcs.map (fun m => ⟨m.cls, clsDefaults reg m.cls⟩), []) :=
      buildModifiers_fromField reg "BTService" "Service" svcs F "services"
        (infoJsonFields_services _ _ _ _ _ _ _) hsvcs
    have hchildren : ∃ gs,
        (if c.isChildOfName "BTCompositeNode" then
          (if hasField F "children" then
            createChildren reg (asArrayField F "children") else ([], []))
         else ([], [])) = (gs, ([] : List String)) ∧
        gShapeList gs = defaultShapeSlots reg children := by
      rw [if_pos hcomp]
      cases children with
      | nil =>
        have habs : hasField F "children" = false := by
          rw [hasField, infoJsonFields_children, serializeSlots]
          rfl
        rw [habs]
        exact ⟨[], by simp, by rw [gShapeList, defaultShapeSlots]⟩
      | cons s rest =>
        obtain ⟨ds, cd⟩ := s
        have hlen : (serializeSlots (BTSlot.slot ds cd :: rest)).length > 0 := by
          rw [serializeSlots]
          simp
        have hpres : hasField F "children" = true := by
          rw [hasField, infoJsonFields_children, if_pos hlen]
          rfl
        have harr : asArrayField F "children" =
            infoChildrenToJson (serializeSlots (BTSlot.slot ds cd :: rest)) := by
          rw [asArrayField, infoJsonFields_children, if_pos hlen]
          rfl
        obtain ⟨gs, hgs, hsh⟩ := roundtrip_slots (BTSlot.slot ds cd :: rest) reg hslots
        rw [hpres, if_pos rfl, harr, hgs]
        exact ⟨gs, rfl, hsh⟩
    obtain ⟨gs, hgsEq, hgsShape⟩ := hchildren
    refine ⟨.mk k ⟨c.name, applyProps c.defaults F⟩
        (extDecs.map (fun m => ⟨m.cls, clsDefaults reg m.cls⟩))
        (svcs.map (fun m => ⟨m.cls, clsDefaults reg m.cls⟩)) gs, ?_, ?_⟩
    · rw [hFeq, objFields_jobj, createRec_resolved reg F cls c k hhas hstr hfind hk,
        hdec, hsvc, hgsEq]
      simp
    · have hmapD : (extDecs.map (fun m =>
          (⟨m.cls, clsDefaults reg m.cls⟩ : RTInst))).map (fun r => (r.cls, r.props)) =
          extDecs.map (modShape reg) := by
        rw [List.map_map]
        apply List.map_congr_left
        intro m hm
        rfl
      have hmapS : (svcs.map (fun m =>
          (⟨m.cls, clsDefaults reg m.cls⟩ : RTInst))).map (fun r => (r.cls, r.props)) =
          svcs.map (modShape reg) := by
        rw [List.map_map]
        apply List.map_congr_left
        intro m hm
        rfl
      rw [gShape, defaultShape]
      simp only [Shape.node.injEq]
      exact ⟨hname, happ.trans (clsDefaults_of_find hfind).symm, hmapD, hmapS, hgsShape⟩
  | .task n o cls props svcs, extDecs, reg => by
    intro hwt hdecs
    rw [wellTypedT] at hwt
    simp only [Bool.and_eq_true] at hwt
    obtain ⟨hcls, hsvcs⟩ := hwt
    obtain ⟨c, hfind, htask⟩ := resolvesKind_some hcls
    obtain ⟨hname, _, _⟩ := FindBTNodeClass_props hfind
    obtain ⟨k, hk⟩ := gKind_of_task htask
    have hFeq : BTNodeInfoToJson (addSlotDecorators
        (SerializeBTNode (.task n o cls props svcs)) extDecs) =
        .jobj (infoJsonFields n cls (extDecs.map (·.cls)) (extDecs.map (·.nodeName))
          (svcs.map (·.cls)) (svcs.map (·.nodeName)) []) := by
      rw [SerializeBTNode, addSlotDecorators, BTNodeInfoToJson_fields]
      simp only [List.nil_append]
    set F := infoJsonFields n cls (extDecs.map (·.cls)) (extDecs.map (·.nodeName))
      (svcs.map (·.cls)) (svcs.map (·.nodeName)) ([] : List FMCPythonBTNodeInfo) with hFdef
    have hhas : hasField F "node_class" = true := by
      rw [hasField, infoJsonFields_nodeClass]
      rfl
    have hstr : getStringField F "node_class" = cls := by
      rw [getStringField, infoJsonFields_nodeClass]
      rfl
    have happ : applyProps c.defaults F = c.defaults := by
      rw [applyProps, asObjectField, infoJsonFields_properties]
    have hdec : buildModifiers reg "BTDecorator" "Decorator" (asArrayField F "decorators") =
        (extDecs.map (fun m => ⟨m.cls, clsDefaults reg m.cls⟩), []) :=
      buildModifiers_fromField reg "BTDecorator" "Decorator" extDecs F "decorators"
        (infoJsonFields_decorators _ _ _ _ _ _ _) hdecs
    have hsvc : buildModifiers reg "BTService" "Service" (asArrayField F "services") =
        (svcs.map (fun m => ⟨m.cls, clsDefaults reg m.cls⟩), []) :=
      buildModifiers_fromField reg "BTService" "Service" svcs F "services"
        (infoJsonFields_services _ _ _ _ _ _ _) hsvcs
    have habs : hasField F "children" = false := by
      rw [hasField, infoJsonFields_children]
      rfl
    have hchildR : (if c.isChildOfName "BTCompositeNode" then
        (if hasField F "children" then
          createChildren reg (asArrayField F "children") else ([], []))
       else ([], [])) = (([] : List GNode), ([] : List String)) := by
      rw [habs]
      cases c.isChildOfName "BTCompositeNode" <;> simp
    refine ⟨.mk k ⟨c.name, applyProps c.defaults F⟩
        (extDecs.map (fun m => ⟨m.cls, clsDefaults reg m.cls⟩))
        (svcs.map (fun m => ⟨m.cls, clsDefaults reg m.cls⟩)) [], ?_, ?_⟩
    · rw [hFeq, objFields_jobj, createRec_resolved reg F cls c k hhas hstr hfind hk,
        hdec, hsvc, hchildR]
      simp
    · have hmapD : (extDecs.map (fun m =>
          (⟨m.cls, clsDefaults reg m.cls⟩ : RTInst))).map (fun r => (r.cls, r.props)) =
          extDecs.map (modShape reg) := by
        rw [List.map_map]
        apply List.map_congr_left
        intro m hm
        rfl
      have hmapS : (svcs.map (fun m =>
          (⟨m.cls, clsDefaults reg m.cls⟩ : RTInst))).map (fun r => (r.cls, r.props)) =
          svcs.map (modShape reg) := by
        rw [List.map_map]
        apply List.map_congr_left
        intro m hm
        rfl
      rw [gShape, defaultShape]
      simp only [Shape.node.injEq]
      exact ⟨hname, happ.trans (clsDefaults_of_find hfind).symm, hmapD, hmapS,
        by rw [gShapeList]⟩
termination_by t _ _ => sizeOf t

theorem roundtrip_slots :
    ∀ (slots : List BTSlot) (reg : Registry),
      wellTypedSlots reg slots = true →
      ∃ gs, createChildren reg (infoChildrenToJson (serializeSlots slots)) = (gs, []) ∧
        gShapeList gs = defaultShapeSlots reg slots
  | [], reg => by
    intro _
    exact ⟨[], by rw [serializeSlots, infoChildrenToJson, createChildren],
      by rw [gShapeList, defaultShapeSlots]⟩
  | .slot ds cd :: rest, reg => by
    intro hwt
    rw [wellTypedSlots] at hwt
    simp only [Bool.and_eq_true] at hwt
    obtain ⟨⟨hds, hchild⟩, hrest⟩ := hwt
    obtain ⟨gc, hgc, hgcShape⟩ := roundtrip_node cd ds reg hchild hds
    obtain ⟨gs, hgs, hgsShape⟩ := roundtrip_slots rest reg hrest
    refine ⟨gc :: gs, ?_, ?_⟩
    · rw [serializeSlots, infoChildrenToJson,
        BTNodeInfoToJson_isObj (addSlotDecorators (SerializeBTNode cd) ds), createChildren]
      simp only [hgc, hgs]
      simp
    · rw [gShapeList, defaultShapeSlots, hgcShape, hgsShape]
termination_by slots _ => sizeOf slots
end


-- ─── C1: round-trip structure ────────────────────────────────────────────────

theorem addSlotDecorators_nil (i : FMCPythonBTNodeInfo) : addSlotDecorators i [] = i := by
  obtain ⟨n, c, dc, dn, sc, sn, ch⟩ := i
  rw [addSlotDecorators]
  simp

/-- A live task whose `WaitTime` was edited away from the class default. -/
def demoChangedTask : BTree := .task "Wait" "W0" "BTTask_Wait" [(demoWaitProp, "2.5")] []

/-- A live tree containing that task, for the C1 counterexample. -/
def demoChangedTree : BTree :=
  .comp "Selector" "Sel0" "BTComposite_Selector" [] [] [.slot [] demoChangedTask]

/-- C1 counterexample: rebuilding the serialized form of a tree whose task
carries `WaitTime = "2.5"` yields a task carrying the class default
`"5.0"` — the serializer exports no attributes, so attribute values are
not included in the round trip. -/
theorem claim_C1_counterexample :
    ∃ g, createRec demoRegistry (objFields (BTNodeInfoToJson (SerializeBTNode demoChangedTree)))
        = (some g, []) ∧
      g.children.map (fun ch => getPropValue ch.inst.props "WaitTime") = [some "5.0"] ∧
      getPropValue demoChangedTask.props "WaitTime" = some "2.5" := by
  have hser : BTNodeInfoToJson (SerializeBTNode demoChangedTree) = .jobj
      [("node_name", .jstr "Selector"), ("node_class", .jstr "BTComposite_Selector"),
       ("children", .jarr
         [.jobj [("node_name", .jstr "Wait"), ("node_class", .jstr "BTTask_Wait")]])] := by
    simp [demoChangedTree, demoChangedTask, SerializeBTNode, serializeSlots, addSlotDecorators,
      BTNodeInfoToJson_fields, infoJsonFields, infoChildrenToJson, modifierEntriesToJson]
  refine ⟨GNode.mk .composite ⟨"BTComposite_Selector", []⟩ [] [] [demoBuiltWait],
    ?_, by decide, by decide⟩
  rw [hser, objFields_jobj, createRec]
  simp [hasField, getField, getStringField, asString, tryGetString, demoRegistry,
    demoSelectorClass, demoWaitClass, FindBTNodeClass, List.find?, UEClass.isChildOfName,
    CheckClassAncestor, applyProps, asObjectField, asArrayField, asArray, asObject,
    buildModifiers, createChildren, createRec, demoBuiltWait, demoWaitProp]

/-- C1 as amended: for every well-typed live tree, building from its
serialized form succeeds with no warnings and reproduces the structure
exactly — node count, class names, child order, decorator/service
attachment points — but not the attribute values: the tree serializer
emits no `properties`, so every rebuilt node and modifier carries its
class-default values (`defaultShape`). -/
theorem claim_C1 (reg : Registry) (t : BTree) (hwt : wellTypedT reg t = true) :
    ∃ g, createRec reg (objFields (BTNodeInfoToJson (SerializeBTNode t))) = (some g, []) ∧
      gShape g = defaultShape reg [] t := by
  have h := roundtrip_node t [] reg hwt (by rw [List.all_nil])
  rwa [addSlotDecorators_nil] at h

theorem claim_C1_witness :
    ∃ g, createRec demoRegistry (objFields (BTNodeInfoToJson (SerializeBTNode demoChangedTree)))
        = (some g, []) ∧ gShape g = defaultShape demoRegistry [] demoChangedTree :=
  claim_C1 demoRegistry demoChangedTree (by
    simp [wellTypedT, wellTypedSlots, resolvesKind, demoChangedTree, demoChangedTask,
      FindBTNodeClass, demoRegistry, demoSelectorClass, demoWaitClass, List.find?,
      UEClass.isChildOfName])


-- ─── C3: order preservation through serialize, rebuild and layout ────────────

/-- The record `serializeSlots` produces for one child slot. -/
def slotRecord : BTSlot → FMCPythonBTNodeInfo
  | .slot ds c => addSlotDecorators (SerializeBTNode c) ds

def BTSlot.decs : BTSlot → List BTModifier
  | .slot ds _ => ds

def BTSlot.childNode : BTSlot → BTree
  | .slot _ c => c

theorem layout_x (g : GNode) (x w y : ℚ) :
    (LayoutBTGraphNodes g x w y).x = cppTrunc (x + w / 2 - 280 / 2) := by
  cases g with
  | mk k i d s ch =>
    rw [LayoutBTGraphNodes, PNode.x]

theorem cppTrunc_lt {a b : ℚ} (h : a + 2 ≤ b) : cppTrunc a < cppTrunc b := by
  have ha : (cppTrunc a : ℚ) < a + 1 := by
    rw [cppTrunc]
    split
    · push_cast
      have := Int.lt_floor_add_one (-a)
      linarith
    · have := Int.floor_le a
      linarith
  have hb : b - 1 < (cppTrunc b : ℚ) := by
    rw [cppTrunc]
    split
    · push_cast
      have := Int.floor_le (-b)
      linarith
    · have := Int.lt_floor_add_one b
      linarith
  have hq : (cppTrunc a : ℚ) < (cppTrunc b : ℚ) := by linarith
  exact_mod_cast hq

theorem width_ge (c : GNode) : (320 : ℚ) ≤ ((CountSubtreeLeaves c : ℕ) : ℚ) * (280 + 40) := by
  have h := CountSubtreeLeaves_pos c
  have h2 : (1 : ℚ) ≤ ((CountSubtreeLeaves c : ℕ) : ℚ) := by exact_mod_cast h
  linarith

theorem layoutChildren_chain :
    ∀ (cs : List GNode) (x y : ℚ),
      List.Chain' (· < ·) ((layoutChildren cs x y).map PNode.x)
  | [], _, _ => by
    simp only [layoutChildren]
    simp
  | [c], x, y => by
    simp only [layoutChildren]
    simp
  | c1 :: c2 :: rest, x, y => by
    have ih := layoutChildren_chain (c2 :: rest)
      (x + ((CountSubtreeLeaves c1 : ℕ) : ℚ) * (280 + 40)) y
    simp only [layoutChildren] at ih ⊢
    simp only [List.map_cons, List.chain'_cons] at ih ⊢
    refine ⟨?_, ih⟩
    rw [layout_x, layout_x]
    apply cppTrunc_lt
    have h1 := width_ge c1
    have h2 := width_ge c2
    linarith

theorem gShapeList_eq_nil {ch : List GNode} (h : gShapeList ch = []) : ch = [] := by
  cases ch with
  | nil => rfl
  | cons c cs =>
    rw [gShapeList] at h
    simp at h

theorem gShapeList_eq_cons {ch : List GNode} {s : Shape} {ss : List Shape}
    (h : gShapeList ch = s :: ss) :
    ∃ c cs, ch = c :: cs ∧ gShape c = s ∧ gShapeList cs = ss := by
  cases ch with
  | nil =>
    rw [gShapeList] at h
    simp at h
  | cons c cs =>
    rw [gShapeList] at h
    exact ⟨c, cs, rfl, (List.cons.injEq _ _ _ _ ▸ h).1, (List.cons.injEq _ _ _ _ ▸ h).2⟩

/-- C3: serializing a composite with slots in order `[A, B, C]` yields the
`children` array in exactly that order; rebuilding that JSON produces the
three children in the same order (matching shapes), and the layout pass
assigns the built children strictly ascending x-positions in that order,
for every allocation the layout is invoked with. -/
theorem claim_C3 (reg : Registry) (n o cls : String) (props : List (UEProperty × String))
    (svcs : List BTModifier) (A B C : BTSlot)
    (hwt : wellTypedT reg (.comp n o cls props svcs [A, B, C]) = true) :
    (SerializeBTNode (.comp n o cls props svcs [A, B, C])).Children =
      [slotRecord A, slotRecord B, slotRecord C] ∧
    ∃ g gA gB gC,
      createRec reg (objFields (BTNodeInfoToJson
        (SerializeBTNode (.comp n o cls props svcs [A, B, C])))) = (some g, []) ∧
      g.children = [gA, gB, gC] ∧
      gShape gA = defaultShape reg A.decs A.childNode ∧
      gShape gB = defaultShape reg B.decs B.childNode ∧
      gShape gC = defaultShape reg C.decs C.childNode ∧
      (∀ leftX width y, List.Chain' (· < ·)
        ((LayoutBTGraphNodes g leftX width y).children.map PNode.x)) := by
  obtain ⟨da, ca⟩ := A
  obtain ⟨db, cb⟩ := B
  obtain ⟨dc, cc⟩ := C
  have hrt := roundtrip_node (.comp n o cls props svcs
      [.slot da ca, .slot db cb, .slot dc cc]) [] reg hwt (by rw [List.all_nil])
  rw [addSlotDecorators_nil] at hrt
  obtain ⟨g, hg, hsh⟩ := hrt
  constructor
  · rw [SerializeBTNode, FMCPythonBTNodeInfo.Children, serializeSlots, serializeSlots,
      serializeSlots, serializeSlots, slotRecord, slotRecord, slotRecord]
  · obtain ⟨k, i, dI, sI, ch⟩ := g
    rw [gShape, defaultShape, defaultShapeSlots, defaultShapeSlots, defaultShapeSlots,
      defaultShapeSlots] at hsh
    simp only [Shape.node.injEq] at hsh
    obtain ⟨gA, chA, hchA, hshA, hrestA⟩ := gShapeList_eq_cons hsh.2.2.2.2
    obtain ⟨gB, chB, hchB, hshB, hrestB⟩ := gShapeList_eq_cons hrestA
    obtain ⟨gC, chC, hchC, hshC, hrestC⟩ := gShapeList_eq_cons hrestB
    have hnil := gShapeList_eq_nil hrestC
    subst hnil
    subst hchC
    subst hchB
    subst hchA
    refine ⟨GNode.mk k i dI sI [gA, gB, gC], gA, gB, gC, hg, by rw [GNode.children],
      hshA, hshB, hshC, ?_⟩
    intro leftX width y
    rw [LayoutBTGraphNodes, PNode.children]
    exact layoutChildren_chain [gA, gB, gC] leftX _

/-- A concrete decorated-free task slot, for the C3 witness. -/
def demoSlot : BTSlot := .slot [] (.task "Wait" "W0" "BTTask_Wait" [] [])

theorem claim_C3_witness :
    (SerializeBTNode (.comp "Sel" "S0" "BTComposite_Selector" [] []
      [demoSlot, demoSlot, demoSlot])).Children =
      [slotRecord demoSlot, slotRecord demoSlot, slotRecord demoSlot] ∧
    ∃ g gA gB gC,
      createRec demoRegistry (objFields (BTNodeInfoToJson
        (SerializeBTNode (.comp "Sel" "S0" "BTComposite_Selector" [] []
          [demoSlot, demoSlot, demoSlot])))) = (some g, []) ∧
      g.children = [gA, gB, gC] ∧
      gShape gA = defaultShape demoRegistry demoSlot.decs demoSlot.childNode ∧
      gShape gB = defaultShape demoRegistry demoSlot.decs demoSlot.childNode ∧
      gShape gC = defaultShape demoRegistry demoSlot.decs demoSlot.childNode ∧
      (∀ leftX width y, List.Chain' (· < ·)
        ((LayoutBTGraphNodes g leftX width y).children.map PNode.x)) :=
  claim_C3 demoRegistry "Sel" "S0" "BTComposite_Selector" [] [] demoSlot demoSlot demoSlot (by
    simp [wellTypedT, wellTypedSlots, resolvesKind, demoSlot, FindBTNodeClass, demoRegistry,
      demoSelectorClass, demoWaitClass, List.find?, UEClass.isChildOfName])

end UnrealMCPython
